import Mathlib

/-!
Verification development for the bnch.dev benchmarker library.

The program text is embedded shallowly:

* JavaScript strings are modelled as `List Char`; `String.length` in JS counts
  UTF-16 code units, modelled by `jsLength`.
* The regular expressions of `src/dangerous-patterns.ts` are embedded as
  executable matchers over `List Char`; each matcher returns the length of the
  (leftmost-at-this-offset) match, mirroring JavaScript `RegExp.exec` semantics
  for the constructs actually used there (case-insensitive literals, `\s*`,
  `\s+`, greedy single-class stars, bounded repetition, optional `"`,
  word boundaries, a capture group with a case-insensitive backreference,
  and a greedy `.*`).
* `CodeValidator.validateCode` (src/code-validator.ts) is embedded as a total
  function returning `Option ValidationError`; `throw` becomes `some`.
* Numeric values held in JS floating point variables are modelled exactly as
  rationals; the one inexact operation (`Math.sqrt` in `calculateStats`) is
  modelled by keeping the radicand (`variance`) exact and exposing the
  standard deviation as `Real.sqrt` of it.
-/

/-! ## Character classes used by the regexes -/

/-- JS `\w`: ASCII letters, digits, underscore. -/
def isWordChar (c : Char) : Bool :=
  (('a' ≤ c && c ≤ 'z') || ('A' ≤ c && c ≤ 'Z') || ('0' ≤ c && c ≤ '9') || c = '_')

/-- JS `\s`: whitespace and line terminators (the members relevant to source
text; the full ECMAScript set also holds further Unicode space separators,
which behave identically for every input considered here). -/
def isSpaceJS (c : Char) : Bool :=
  (c = ' ' || c = '\t' || c = '\n' || c = '\r' ||
    c = (Char.ofNat 11) || c = (Char.ofNat 12) ||
    c = (Char.ofNat 0xa0) || c = (Char.ofNat 0xfeff) ||
    c = (Char.ofNat 0x2028) || c = (Char.ofNat 0x2029) || c = (Char.ofNat 0x3000))

/-- JS line terminators, which `.` does not match. -/
def isLineTerm (c : Char) : Bool :=
  (c = '\n' || c = '\r' || c = (Char.ofNat 0x2028) || c = (Char.ofNat 0x2029))

def isDigitChar (c : Char) : Bool := ('0' ≤ c && c ≤ '9')

/-- `[a-zA-Z_]`, the first character of the identifier alternative in the
self-equality pattern. -/
def isIdentStart (c : Char) : Bool :=
  (('a' ≤ c && c ≤ 'z') || ('A' ≤ c && c ≤ 'Z') || c = '_')

/-- The double-quote character (the only quote the `\"?` pieces accept). -/
def dq : Char := Char.ofNat 34

/-- Case folding used by the `/i` flag (ASCII range, which covers every
pattern character). -/
def lowerJS (c : Char) : Char := c.toLower

/-- Case-insensitive character comparison, as under the `/i` flag. -/
def charCI (a b : Char) : Bool := lowerJS a = lowerJS b

/-! ## UTF-16 / UTF-8 lengths

JS `String.prototype.length` counts UTF-16 code units: characters above
`U+FFFF` count twice.  `utf8Length` is the byte length of the UTF-8 encoding,
used only to state claims that contrast "bytes" with what the code measures. -/

def utf16Units (c : Char) : Nat := if c.toNat < 0x10000 then 1 else 2

def jsLength (s : List Char) : Nat := (s.map utf16Units).sum

def utf8Bytes (c : Char) : Nat :=
  if c.toNat < 0x80 then 1
  else if c.toNat < 0x800 then 2
  else if c.toNat < 0x10000 then 3
  else 4

def utf8Length (s : List Char) : Nat := (s.map utf8Bytes).sum

/-! ## Consumers

A consumer eats a prefix of the input and returns the rest, or `none` when the
regex piece it embeds fails at this position. -/

/-- Case-insensitive literal (a run of pattern characters under `/i`). -/
def cLitCI : List Char → List Char → Option (List Char)
  | [], s => some s
  | _ :: _, [] => none
  | p :: ps, c :: cs => if charCI p c then cLitCI ps cs else none

/-- Greedy `\s*` (never fails; safe to commit because in every pattern the
following piece starts with a non-space character). -/
def cWS : List Char → List Char
  | [] => []
  | c :: cs => if isSpaceJS c then cWS cs else c :: cs

/-- `\s+`. -/
def cWS1 : List Char → Option (List Char)
  | [] => none
  | c :: cs => if isSpaceJS c then some (cWS cs) else none

/-- A single character from a class. -/
def cChar (p : Char → Bool) : List Char → Option (List Char)
  | [] => none
  | c :: cs => if p c then some cs else none

/-- Greedy run of at least `n` characters of a class (used for `\!{1,}`,
`\!{2,}`, `\d+`, `\w*`; in each use the following piece cannot start with a
class character, so committing to the maximal run is exact). -/
def cRunAtLeast (p : Char → Bool) : Nat → List Char → Option (List Char)
  | n, [] => if n = 0 then some [] else none
  | n, c :: cs =>
    if p c then cRunAtLeast p (n - 1) cs
    else if n = 0 then some (c :: cs) else none

/-- The quote class in the catalog: single quote, double quote, or backtick. -/
def isQuoteChar (c : Char) : Bool :=
  (c = dq || c = (Char.ofNat 39) || c = (Char.ofNat 96))

/-! ## Matchers

`Matcher` decides whether a pattern matches starting exactly at the current
offset; the previous character is supplied for `\b`.  `firstMatch` then gives
JS `exec` semantics (with `lastIndex` reset to 0): the smallest starting
offset with a match, together with the match length. -/

def Matcher : Type := Option Char → List Char → Option Nat

def prevIsWord : Option Char → Bool
  | none => false
  | some c => isWordChar c

/-- Build a matcher from a consumer for a pattern without boundary anchors. -/
def ofConsumer (f : List Char → Option (List Char)) : Matcher :=
  fun _ s => (f s).map (fun r => s.length - r.length)

/-- Build a matcher for a pattern of the form `\b⟨word-initial piece⟩…`. -/
def ofConsumerWB (f : List Char → Option (List Char)) : Matcher :=
  fun prev s => if prevIsWord prev then none else (f s).map (fun r => s.length - r.length)

def firstMatchAux (m : Matcher) : Option Char → Nat → List Char → Option (Nat × Nat)
  | prev, i, [] =>
    match m prev [] with
    | some len => some (i, len)
    | none => none
  | prev, i, c :: cs =>
    match m prev (c :: cs) with
    | some len => some (i, len)
    | none => firstMatchAux m (some c) (i + 1) cs

/-- `pattern.exec(code)` after `pattern.lastIndex = 0`: index and length of the
leftmost match, if any. -/
def firstMatch (m : Matcher) (code : List Char) : Option (Nat × Nat) :=
  firstMatchAux m none 0 code

/-! ## Security error codes (src/security-error-codes.ts, as used by the catalog) -/

inductive SecurityErrorCode where
  | INFINITE_WHILE_LOOP | INFINITE_FOR_LOOP
  | EVAL_USAGE | FUNCTION_CONSTRUCTOR
  | SETTIMEOUT_USAGE | SETINTERVAL_USAGE
  | FETCH_USAGE | XMLHTTPREQUEST_USAGE | XMLHTTPREQUEST_CONSTRUCTOR
  | WEBSOCKET_USAGE | WEBSOCKET_CONSTRUCTOR
  | EVENTSOURCE_USAGE | EVENTSOURCE_CONSTRUCTOR
  | WORKER_USAGE | WORKER_CONSTRUCTOR
  | SHAREDWORKER_USAGE | SHAREDWORKER_CONSTRUCTOR
  | IMPORTSCRIPTS_USAGE | SCRIPT_ELEMENT_CREATION
  | INNERHTML_ASSIGNMENT | OUTERHTML_ASSIGNMENT
  | REQUESTANIMATIONFRAME_USAGE | SETIMMEDIATE_USAGE | PROCESS_NEXTTICK_USAGE
  | CRYPTO_SUBTLE_USAGE
  | LOCALSTORAGE_USAGE | SESSIONSTORAGE_USAGE | INDEXEDDB_USAGE
  | ALERT_USAGE | CONFIRM_USAGE | PROMPT_USAGE
  | HISTORY_USAGE | NAVIGATOR_USAGE
  | IMPORT_USAGE | REQUIRE_USAGE | INCLUDE_USAGE
  | GLOBAL_ACCESS | WINDOW_ACCESS | DOCUMENT_ACCESS | LOCATION_ACCESS
  | CONSOLE_USAGE | DEBUGGER_USAGE | WITH_STATEMENT
  | DELETE_OPERATOR | PROTOTYPE_POLLUTION
  | BUFFER_USAGE | FILESYSTEM_USAGE | CHILD_PROCESS_USAGE
  deriving DecidableEq, Repr

/-! ## Consumers for the pattern shapes of the catalog -/

/-- `⟨name⟩\s*\(` -/
def cNameParen (name : List Char) (s : List Char) : Option (List Char) :=
  (cLitCI name s).bind fun s => cChar (fun c => c = '(') (cWS s)

/-- `new\s+⟨name⟩\s*\(` -/
def cNewNameParen (name : List Char) (s : List Char) : Option (List Char) :=
  (cLitCI ['n', 'e', 'w'] s).bind fun s => (cWS1 s).bind (cNameParen name)

/-- `⟨name⟩\s*\.` -/
def cNameDot (name : List Char) (s : List Char) : Option (List Char) :=
  (cLitCI name s).bind fun s => cChar (fun c => c = '.') (cWS s)

/-- `while\s*\(\s*`, the common opening of the four infinite-while patterns. -/
def cWhileParen (s : List Char) : Option (List Char) :=
  (cLitCI ['w', 'h', 'i', 'l', 'e'] s).bind fun s =>
    (cChar (fun c => c = '(') (cWS s)).map cWS

/-- `while\s*\(\s*true\s*\)` -/
def cWhileTrue (s : List Char) : Option (List Char) :=
  (cWhileParen s).bind fun s =>
    (cLitCI ['t', 'r', 'u', 'e'] s).bind fun s => cChar (fun c => c = ')') (cWS s)

/-- `while\s*\(\s*(\!{2,})\s*true\s*\)` -/
def cWhileBangsTrue (s : List Char) : Option (List Char) :=
  (cWhileParen s).bind fun s =>
    (cRunAtLeast (fun c => c = '!') 2 s).bind fun s =>
      (cLitCI ['t', 'r', 'u', 'e'] (cWS s)).bind fun s => cChar (fun c => c = ')') (cWS s)

/-- `while\s*\(\s*(\!{1,})\s*false\s*\)` -/
def cWhileBangsFalse (s : List Char) : Option (List Char) :=
  (cWhileParen s).bind fun s =>
    (cRunAtLeast (fun c => c = '!') 1 s).bind fun s =>
      (cLitCI ['f', 'a', 'l', 's', 'e'] (cWS s)).bind fun s => cChar (fun c => c = ')') (cWS s)

/-- `\"?` with the regex's preference for consuming the quote, in
continuation-passing style so failure backtracks. -/
def optDQ (s : List Char) (k : List Char → Option (List Char)) : Option (List Char) :=
  match s with
  | c :: cs => if c = dq then (k cs) <|> k (c :: cs) else k (c :: cs)
  | [] => k []

/-- `(={2,3})`, greedy with backtracking, in continuation-passing style. -/
def cEq23 (s : List Char) (k : List Char → Option (List Char)) : Option (List Char) :=
  match s with
  | '=' :: '=' :: '=' :: rest => (k rest) <|> k ('=' :: rest)
  | '=' :: '=' :: rest => k rest
  | _ => none

/-- The capture group `([a-zA-Z_]\w*|\d+)`: returns (captured text, rest). -/
def cGroup (s : List Char) : Option (List Char × List Char) :=
  match s with
  | c :: cs =>
    if isIdentStart c then
      some (c :: cs.takeWhile (fun d => isWordChar d), cs.dropWhile (fun d => isWordChar d))
    else if isDigitChar c then
      some (c :: cs.takeWhile isDigitChar, cs.dropWhile isDigitChar)
    else none
  | [] => none

/-- `while\s*\(\s*\"?\s*([a-zA-Z_]\w*|\d+)\s*\"?\s*(={2,3})\s*\"?\s*\1\s*\"?\s*\)`;
the backreference `\1` compares case-insensitively under `/i`, exactly as
`cLitCI` does. -/
def cWhileSelfEq (s : List Char) : Option (List Char) :=
  (cWhileParen s).bind fun s =>
  optDQ s fun s =>
  (cGroup (cWS s)).bind fun g =>
  optDQ (cWS g.2) fun s =>
  cEq23 (cWS s) fun s =>
  optDQ (cWS s) fun s =>
  (cLitCI g.1 (cWS s)).bind fun s =>
  optDQ (cWS s) fun s =>
  cChar (fun c => c = ')') (cWS s)

/-- `for\s*\(\s*;\s*;\s*\)` -/
def cForInfinite (s : List Char) : Option (List Char) :=
  (cLitCI ['f', 'o', 'r'] s).bind fun s =>
  (cChar (fun c => c = '(') (cWS s)).bind fun s =>
  (cChar (fun c => c = ';') (cWS s)).bind fun s =>
  (cChar (fun c => c = ';') (cWS s)).bind fun s =>
  cChar (fun c => c = ')') (cWS s)

/-- `document\.createElement\s*\(\s*['"`]script['"`]` -/
def cScriptCreate (s : List Char) : Option (List Char) :=
  (cLitCI ['d', 'o', 'c', 'u', 'm', 'e', 'n', 't', '.', 'c', 'r', 'e', 'a', 't', 'e', 'E', 'l', 'e', 'm', 'e', 'n', 't'] s).bind fun s =>
  (cChar (fun c => c = '(') (cWS s)).bind fun s =>
  (cChar isQuoteChar (cWS s)).bind fun s =>
  (cLitCI ['s', 'c', 'r', 'i', 'p', 't'] s).bind (cChar isQuoteChar)

/-- `\.⟨name⟩\s*=` (innerHTML / outerHTML assignment). -/
def cDotNameEq (name : List Char) (s : List Char) : Option (List Char) :=
  (cChar (fun c => c = '.') s).bind fun s =>
  (cLitCI name s).bind fun s => cChar (fun c => c = '=') (cWS s)

/-- `(prototype|constructor|__proto__)`, alternatives in catalog order. -/
def cProtoWord (s : List Char) : Option (List Char) :=
  (cLitCI ['p', 'r', 'o', 't', 'o', 't', 'y', 'p', 'e'] s) <|> (cLitCI ['c', 'o', 'n', 's', 't', 'r', 'u', 'c', 't', 'o', 'r'] s) <|>
    cLitCI ['_', '_', 'p', 'r', 'o', 't', 'o', '_', '_'] s

def cDotProto (s : List Char) : Option (List Char) :=
  (cChar (fun c => c = '.') s).bind cProtoWord

/-- Greedy `.*` (anything but line terminators) followed by the continuation,
preferring the longest prefix, with full backtracking. -/
def dotStarThen (t : List Char → Option (List Char)) : List Char → Option (List Char)
  | [] => t []
  | c :: cs => if isLineTerm c then t (c :: cs) else (dotStarThen t cs) <|> t (c :: cs)

/-- `delete\s+.*\.(prototype|constructor|__proto__)` -/
def cDeleteProto (s : List Char) : Option (List Char) :=
  (cLitCI ['d', 'e', 'l', 'e', 't', 'e'] s).bind fun s => (cWS1 s).bind (dotStarThen cDotProto)

/-- `__proto__\s*=` -/
def cProtoAssign (s : List Char) : Option (List Char) :=
  (cLitCI ['_', '_', 'p', 'r', 'o', 't', 'o', '_', '_'] s).bind fun s => cChar (fun c => c = '=') (cWS s)

/-- `\.(prototype|constructor)\s*=\s*null` -/
def cProtoNull (s : List Char) : Option (List Char) :=
  (cChar (fun c => c = '.') s).bind fun s =>
  ((cLitCI ['p', 'r', 'o', 't', 'o', 't', 'y', 'p', 'e'] s) <|> cLitCI ['c', 'o', 'n', 's', 't', 'r', 'u', 'c', 't', 'o', 'r'] s).bind fun s =>
  (cChar (fun c => c = '=') (cWS s)).bind fun s => cLitCI ['n', 'u', 'l', 'l'] (cWS s)

/-- `require\s*\(\s*['"`]⟨module⟩['"`]` -/
def cRequireMod (m : List Char) (s : List Char) : Option (List Char) :=
  (cLitCI ['r', 'e', 'q', 'u', 'i', 'r', 'e'] s).bind fun s =>
  (cChar (fun c => c = '(') (cWS s)).bind fun s =>
  (cChar isQuoteChar (cWS s)).bind fun s =>
  (cLitCI m s).bind (cChar isQuoteChar)

/-- `\bdebugger\b` -/
def mDebugger : Matcher := fun prev s =>
  if prevIsWord prev then none
  else
    (cLitCI ['d', 'e', 'b', 'u', 'g', 'g', 'e', 'r'] s).bind fun r =>
      match r with
      | [] => some (s.length - 0)
      | c :: _ => if isWordChar c then none else some (s.length - r.length)

/-! ## The dangerous-pattern catalog (src/dangerous-patterns.ts) -/

structure DangerousPattern where
  matcher : Matcher
  code : SecurityErrorCode

def pWhileTrue : DangerousPattern := ⟨ofConsumer cWhileTrue, .INFINITE_WHILE_LOOP⟩
def pWhileBangsTrue : DangerousPattern := ⟨ofConsumer cWhileBangsTrue, .INFINITE_WHILE_LOOP⟩
def pWhileBangsFalse : DangerousPattern := ⟨ofConsumer cWhileBangsFalse, .INFINITE_WHILE_LOOP⟩
def pWhileSelfEq : DangerousPattern := ⟨ofConsumer cWhileSelfEq, .INFINITE_WHILE_LOOP⟩
def pForInfinite : DangerousPattern := ⟨ofConsumer cForInfinite, .INFINITE_FOR_LOOP⟩
def pEval : DangerousPattern := ⟨ofConsumer (cNameParen ['e', 'v', 'a', 'l']), .EVAL_USAGE⟩
def pFunction : DangerousPattern := ⟨ofConsumer (cNameParen ['F', 'u', 'n', 'c', 't', 'i', 'o', 'n']), .FUNCTION_CONSTRUCTOR⟩
def pSetTimeout : DangerousPattern := ⟨ofConsumer (cNameParen ['s', 'e', 't', 'T', 'i', 'm', 'e', 'o', 'u', 't']), .SETTIMEOUT_USAGE⟩
def pSetInterval : DangerousPattern := ⟨ofConsumer (cNameParen ['s', 'e', 't', 'I', 'n', 't', 'e', 'r', 'v', 'a', 'l']), .SETINTERVAL_USAGE⟩
def pFetch : DangerousPattern := ⟨ofConsumer (cNameParen ['f', 'e', 't', 'c', 'h']), .FETCH_USAGE⟩
def pXHR : DangerousPattern := ⟨ofConsumer (cNameParen ['X', 'M', 'L', 'H', 't', 't', 'p', 'R', 'e', 'q', 'u', 'e', 's', 't']), .XMLHTTPREQUEST_USAGE⟩
def pNewXHR : DangerousPattern := ⟨ofConsumer (cNewNameParen ['X', 'M', 'L', 'H', 't', 't', 'p', 'R', 'e', 'q', 'u', 'e', 's', 't']), .XMLHTTPREQUEST_CONSTRUCTOR⟩
def pWebSocket : DangerousPattern := ⟨ofConsumer (cNameParen ['W', 'e', 'b', 'S', 'o', 'c', 'k', 'e', 't']), .WEBSOCKET_USAGE⟩
def pNewWebSocket : DangerousPattern := ⟨ofConsumer (cNewNameParen ['W', 'e', 'b', 'S', 'o', 'c', 'k', 'e', 't']), .WEBSOCKET_CONSTRUCTOR⟩
def pEventSource : DangerousPattern := ⟨ofConsumer (cNameParen ['E', 'v', 'e', 'n', 't', 'S', 'o', 'u', 'r', 'c', 'e']), .EVENTSOURCE_USAGE⟩
def pNewEventSource : DangerousPattern := ⟨ofConsumer (cNewNameParen ['E', 'v', 'e', 'n', 't', 'S', 'o', 'u', 'r', 'c', 'e']), .EVENTSOURCE_CONSTRUCTOR⟩
def pWorker : DangerousPattern := ⟨ofConsumer (cNameParen ['W', 'o', 'r', 'k', 'e', 'r']), .WORKER_USAGE⟩
def pNewWorker : DangerousPattern := ⟨ofConsumer (cNewNameParen ['W', 'o', 'r', 'k', 'e', 'r']), .WORKER_CONSTRUCTOR⟩
def pSharedWorker : DangerousPattern := ⟨ofConsumer (cNameParen ['S', 'h', 'a', 'r', 'e', 'd', 'W', 'o', 'r', 'k', 'e', 'r']), .SHAREDWORKER_USAGE⟩
def pNewSharedWorker : DangerousPattern := ⟨ofConsumer (cNewNameParen ['S', 'h', 'a', 'r', 'e', 'd', 'W', 'o', 'r', 'k', 'e', 'r']), .SHAREDWORKER_CONSTRUCTOR⟩
def pImportScripts : DangerousPattern := ⟨ofConsumer (cNameParen ['i', 'm', 'p', 'o', 'r', 't', 'S', 'c', 'r', 'i', 'p', 't', 's']), .IMPORTSCRIPTS_USAGE⟩
def pScriptCreate : DangerousPattern := ⟨ofConsumer cScriptCreate, .SCRIPT_ELEMENT_CREATION⟩
def pInnerHTML : DangerousPattern := ⟨ofConsumer (cDotNameEq ['i', 'n', 'n', 'e', 'r', 'H', 'T', 'M', 'L']), .INNERHTML_ASSIGNMENT⟩
def pOuterHTML : DangerousPattern := ⟨ofConsumer (cDotNameEq ['o', 'u', 't', 'e', 'r', 'H', 'T', 'M', 'L']), .OUTERHTML_ASSIGNMENT⟩
def pRAF : DangerousPattern := ⟨ofConsumer (cNameParen ['r', 'e', 'q', 'u', 'e', 's', 't', 'A', 'n', 'i', 'm', 'a', 't', 'i', 'o', 'n', 'F', 'r', 'a', 'm', 'e']), .REQUESTANIMATIONFRAME_USAGE⟩
def pSetImmediate : DangerousPattern := ⟨ofConsumer (cNameParen ['s', 'e', 't', 'I', 'm', 'm', 'e', 'd', 'i', 'a', 't', 'e']), .SETIMMEDIATE_USAGE⟩
def pNextTick : DangerousPattern := ⟨ofConsumer (cNameParen ['p', 'r', 'o', 'c', 'e', 's', 's', '.', 'n', 'e', 'x', 't', 'T', 'i', 'c', 'k']), .PROCESS_NEXTTICK_USAGE⟩
def pCryptoSubtle : DangerousPattern := ⟨ofConsumer (cLitCI ['c', 'r', 'y', 'p', 't', 'o', '.', 's', 'u', 'b', 't', 'l', 'e']), .CRYPTO_SUBTLE_USAGE⟩
def pLocalStorage : DangerousPattern := ⟨ofConsumer (cNameDot ['l', 'o', 'c', 'a', 'l', 'S', 't', 'o', 'r', 'a', 'g', 'e']), .LOCALSTORAGE_USAGE⟩
def pSessionStorage : DangerousPattern := ⟨ofConsumer (cNameDot ['s', 'e', 's', 's', 'i', 'o', 'n', 'S', 't', 'o', 'r', 'a', 'g', 'e']), .SESSIONSTORAGE_USAGE⟩
def pIndexedDB : DangerousPattern := ⟨ofConsumer (cNameDot ['i', 'n', 'd', 'e', 'x', 'e', 'd', 'D', 'B']), .INDEXEDDB_USAGE⟩
def pAlert : DangerousPattern := ⟨ofConsumer (cNameParen ['a', 'l', 'e', 'r', 't']), .ALERT_USAGE⟩
def pConfirm : DangerousPattern := ⟨ofConsumer (cNameParen ['c', 'o', 'n', 'f', 'i', 'r', 'm']), .CONFIRM_USAGE⟩
def pPrompt : DangerousPattern := ⟨ofConsumer (cNameParen ['p', 'r', 'o', 'm', 'p', 't']), .PROMPT_USAGE⟩
def pHistory : DangerousPattern := ⟨ofConsumerWB (cNameDot ['h', 'i', 's', 't', 'o', 'r', 'y']), .HISTORY_USAGE⟩
def pNavigator : DangerousPattern := ⟨ofConsumerWB (cNameDot ['n', 'a', 'v', 'i', 'g', 'a', 't', 'o', 'r']), .NAVIGATOR_USAGE⟩
def pImportCall : DangerousPattern := ⟨ofConsumerWB (cNameParen ['i', 'm', 'p', 'o', 'r', 't']), .IMPORT_USAGE⟩
def pRequireCall : DangerousPattern := ⟨ofConsumerWB (cNameParen ['r', 'e', 'q', 'u', 'i', 'r', 'e']), .REQUIRE_USAGE⟩
def pIncludeCall : DangerousPattern := ⟨ofConsumerWB (cNameParen ['i', 'n', 'c', 'l', 'u', 'd', 'e']), .INCLUDE_USAGE⟩
def pGlobal : DangerousPattern := ⟨ofConsumerWB (cNameDot ['g', 'l', 'o', 'b', 'a', 'l']), .GLOBAL_ACCESS⟩
def pWindow : DangerousPattern := ⟨ofConsumerWB (cNameDot ['w', 'i', 'n', 'd', 'o', 'w']), .WINDOW_ACCESS⟩
def pDocument : DangerousPattern := ⟨ofConsumerWB (cNameDot ['d', 'o', 'c', 'u', 'm', 'e', 'n', 't']), .DOCUMENT_ACCESS⟩
def pLocation : DangerousPattern := ⟨ofConsumerWB (cNameDot ['l', 'o', 'c', 'a', 't', 'i', 'o', 'n']), .LOCATION_ACCESS⟩
def pConsole : DangerousPattern := ⟨ofConsumerWB (cNameDot ['c', 'o', 'n', 's', 'o', 'l', 'e']), .CONSOLE_USAGE⟩
def pDebugger : DangerousPattern := ⟨mDebugger, .DEBUGGER_USAGE⟩
def pWith : DangerousPattern := ⟨ofConsumerWB (cNameParen ['w', 'i', 't', 'h']), .WITH_STATEMENT⟩
def pDeleteProto : DangerousPattern := ⟨ofConsumer cDeleteProto, .DELETE_OPERATOR⟩
def pProtoAssign : DangerousPattern := ⟨ofConsumer cProtoAssign, .PROTOTYPE_POLLUTION⟩
def pProtoNull : DangerousPattern := ⟨ofConsumer cProtoNull, .PROTOTYPE_POLLUTION⟩
def pBuffer : DangerousPattern := ⟨ofConsumerWB (cNameDot ['B', 'u', 'f', 'f', 'e', 'r']), .BUFFER_USAGE⟩
def pFsDot : DangerousPattern := ⟨ofConsumerWB (cNameDot ['f', 's']), .FILESYSTEM_USAGE⟩
def pRequireFs : DangerousPattern := ⟨ofConsumer (cRequireMod ['f', 's']), .FILESYSTEM_USAGE⟩
def pRequirePath : DangerousPattern := ⟨ofConsumer (cRequireMod ['p', 'a', 't', 'h']), .FILESYSTEM_USAGE⟩
def pRequireChildProcess : DangerousPattern := ⟨ofConsumer (cRequireMod ['c', 'h', 'i', 'l', 'd', '_', 'p', 'r', 'o', 'c', 'e', 's', 's']), .CHILD_PROCESS_USAGE⟩
def pExecCall : DangerousPattern := ⟨ofConsumerWB (cNameParen ['e', 'x', 'e', 'c']), .CHILD_PROCESS_USAGE⟩
def pSpawnCall : DangerousPattern := ⟨ofConsumerWB (cNameParen ['s', 'p', 'a', 'w', 'n']), .CHILD_PROCESS_USAGE⟩

/-- The catalog, in source order. -/
def dangerousPatterns : List DangerousPattern :=
  [pWhileTrue, pWhileBangsTrue, pWhileBangsFalse, pWhileSelfEq, pForInfinite,
   pEval, pFunction, pSetTimeout, pSetInterval, pFetch,
   pXHR, pNewXHR, pWebSocket, pNewWebSocket, pEventSource, pNewEventSource,
   pWorker, pNewWorker, pSharedWorker, pNewSharedWorker, pImportScripts,
   pScriptCreate, pInnerHTML, pOuterHTML, pRAF, pSetImmediate, pNextTick,
   pCryptoSubtle, pLocalStorage, pSessionStorage, pIndexedDB,
   pAlert, pConfirm, pPrompt,
   pHistory, pNavigator, pImportCall, pRequireCall, pIncludeCall,
   pGlobal, pWindow, pDocument, pLocation, pConsole, pDebugger, pWith,
   pDeleteProto, pProtoAssign, pProtoNull,
   pBuffer, pFsDot, pRequireFs, pRequirePath, pRequireChildProcess,
   pExecCall, pSpawnCall]

/-! ## The validator (src/code-validator.ts) -/

/-- The earliest-match scan of `validateCode` lines 31–39: fold over the
catalog, keeping the match with the strictly smallest starting index (ties
keep the earlier catalog entry). -/
def scanStep (code : List Char) (best : Option (DangerousPattern × Nat × Nat))
    (p : DangerousPattern) : Option (DangerousPattern × Nat × Nat) :=
  match firstMatch p.matcher code with
  | none => best
  | some (i, len) =>
    match best with
    | none => some (p, i, len)
    | some (q, j, jlen) => if i < j then some (p, i, len) else some (q, j, jlen)

def scanEarliest (ps : List DangerousPattern) (code : List Char) :
    Option (DangerousPattern × Nat × Nat) :=
  ps.foldl (scanStep code) none

/-- `String.prototype.split('\n')` on a character list. -/
def splitNl : List Char → List (List Char)
  | [] => [[]]
  | c :: cs =>
    if c = '\n' then [] :: splitNl cs
    else
      match splitNl cs with
      | [] => [[c]]
      | l :: ls => (c :: l) :: ls

/-- `String.prototype.trim()` (leading and trailing whitespace removed). -/
def trimJS (s : List Char) : List Char :=
  ((s.dropWhile (fun c => isSpaceJS c)).reverse.dropWhile (fun c => isSpaceJS c)).reverse

/-- The failure surface of `validateCode`.  `sizeExceeded` (and, for
non-string input, the `code must be a string` error, unrepresentable in this
typed embedding) is a plain `Error` whose kind is distinct by construction
from every `SecurityErrorCode`-carrying `security` failure. -/
inductive ValidationError where
  | sizeExceeded (maxSize : Nat)
  | security (code : SecurityErrorCode) (line column : Nat) (matched : List Char)
  deriving DecidableEq, Repr

/-- `CodeValidator.validateCode`, generalised over the pattern list it scans
(the source closes over the module-level `dangerousPatterns`).  Returns
`none` where the source returns normally and `some e` where it throws `e`. -/
def validateCodeWith (ps : List DangerousPattern) (code : List Char) (maxSize : Nat) :
    Option ValidationError :=
  if jsLength code > maxSize then some (.sizeExceeded maxSize)
  else
    match scanEarliest ps code with
    | none => none
    | some (p, i, len) =>
      let lines := splitNl (code.take i)
      some (.security p.code lines.length ((lines.getLastD []).length + 1)
        (trimJS ((code.drop i).take len)))

/-- `validateCode(code, maxSize)` with the explicit `maxSize` argument. -/
def validateCode (code : List Char) (maxSize : Nat) : Option ValidationError :=
  validateCodeWith dangerousPatterns code maxSize

/-- `validateCode(code)` with the declared default `maxSize = 1024 * 1024`. -/
def validateCodeDefault (code : List Char) : Option ValidationError :=
  validateCode code (1024 * 1024)

/-! ## Statistics aggregator (src/utils.ts, `calculateStats`) -/

structure BenchmarkSample where
  time : ℚ
  success : Bool
  error : Option (List Char)
  deriving DecidableEq, Repr

/-- The `BenchmarkStats` record.  The source stores
`standardDeviation = Math.sqrt(variance)` and
`coefficientOfVariation = mean > 0 ? standardDeviation / mean : 0` as floats;
the embedding keeps the exact radicand `variance` and recovers both fields as
real numbers below (`BenchmarkStats.standardDeviation`,
`BenchmarkStats.coefficientOfVariation`). -/
structure BenchmarkStats where
  mean : ℚ
  median : ℚ
  variance : ℚ
  min : ℚ
  max : ℚ
  successfulSamples : Nat
  failedSamples : Nat
  operationsPerSecond : ℚ
  deriving DecidableEq, Repr

noncomputable def BenchmarkStats.standardDeviation (s : BenchmarkStats) : ℝ :=
  Real.sqrt (s.variance : ℝ)

noncomputable def BenchmarkStats.coefficientOfVariation (s : BenchmarkStats) : ℝ :=
  if 0 < s.mean then s.standardDeviation / (s.mean : ℝ) else 0

/-- `Math.min(...times)` over a non-empty list (`0` for `[]`, a case the
source never reaches on this code path). -/
def jsMinL : List ℚ → ℚ
  | [] => 0
  | t :: ts => ts.foldl min t

/-- `Math.max(...times)`. -/
def jsMaxL : List ℚ → ℚ
  | [] => 0
  | t :: ts => ts.foldl max t

/-- `samples.filter((s) => s.success).map((s) => s.time)`. -/
def successTimes (samples : List BenchmarkSample) : List ℚ :=
  (samples.filter (fun s => s.success)).map (fun s => s.time)

/-- `calculateStats` (src/utils.ts lines 173–214). `reduce((sum, t) => sum + t, 0)`
is `foldl`; `[...times].sort((a,b) => a-b)` sorts ascending by value, modelled
by insertion sort (all comparison sorts agree on a numeric comparator);
`Math.pow(t - mean, 2)` is squaring. -/
def calculateStats (samples : List BenchmarkSample) : BenchmarkStats :=
  let times := successTimes samples
  if times.length = 0 then
    { mean := 0, median := 0, variance := 0, min := 0, max := 0,
      successfulSamples := 0, failedSamples := samples.length,
      operationsPerSecond := 0 }
  else
    let sorted := times.insertionSort (fun a b => a ≤ b)
    let mean := times.foldl (fun sum t => sum + t) 0 / (times.length : ℚ)
    let median :=
      if sorted.length % 2 = 0 then
        (sorted.getD (sorted.length / 2 - 1) 0 + sorted.getD (sorted.length / 2) 0) / 2
      else sorted.getD (sorted.length / 2) 0
    let variance :=
      times.foldl (fun sum t => sum + (t - mean) * (t - mean)) 0 / (times.length : ℚ)
    { mean := mean, median := median, variance := variance,
      min := jsMinL times, max := jsMaxL times,
      successfulSamples := (samples.filter (fun s => s.success)).length,
      failedSamples := samples.length - (samples.filter (fun s => s.success)).length,
      operationsPerSecond := if 0 < mean then 1000 / mean else 0 }

/-! ## Comparison (src/benchmarker.ts, `compare` lines 134–163 and the helpers
`calculateSignificance` / `generateComparisonSummary` lines 280–318)

`compare` runs `benchmark` twice and then reads only `stats.mean` and
`stats.coefficientOfVariation` of the two runs; the embedding takes those two
floats (exact rationals) per run as input and models the pure computation on
them. -/

structure StatsView where
  mean : ℚ
  coefficientOfVariation : ℚ
  deriving DecidableEq, Repr

structure ComparisonOutcome where
  relativeDifference : ℚ
  significanceLevel : ℚ
  summary : String
  deriving DecidableEq, Repr

/-- `calculateSignificance`: `Math.max(0, 1 - Math.max(baselineCV, comparisonCV))`. -/
def calculateSignificance (baseline comparison : StatsView) : ℚ :=
  max 0 (1 - max baseline.coefficientOfVariation comparison.coefficientOfVariation)

/-- `Number.prototype.toFixed(1)` for a non-negative rational: round to one
decimal digit, ties toward the larger value. -/
def toFixed1 (q : ℚ) : String :=
  let n := (q * 10 + 1 / 2).floor.toNat
  toString (n / 10) ++ "." ++ toString (n % 10)

/-- `generateComparisonSummary`. -/
def generateComparisonSummary (relativeDifference significanceLevel : ℚ) : String :=
  let percentChange := |relativeDifference * 100|
  let direction := if 0 < relativeDifference then "faster" else "slower"
  let confidence :=
    if (7 : ℚ) / 10 < significanceLevel then "high"
    else if (2 : ℚ) / 5 < significanceLevel then "medium"
    else "low"
  if percentChange < 1 then
    "Performance difference is negligible (" ++ confidence ++ " confidence)"
  else
    "Comparison is " ++ toFixed1 percentChange ++ "% " ++ direction ++ " (" ++
      confidence ++ " confidence)"

/-- The pure tail of `compare` (lines 143–162): relative difference,
significance, summary. -/
def compareOutcome (baseline comparison : StatsView) : ComparisonOutcome :=
  let relativeDifference :=
    if 0 < comparison.mean ∧ 0 < baseline.mean then
      (baseline.mean - comparison.mean) / baseline.mean
    else 0
  let significanceLevel := calculateSignificance baseline comparison
  { relativeDifference := relativeDifference,
    significanceLevel := significanceLevel,
    summary := generateComparisonSummary relativeDifference significanceLevel }

/-! ## Benchmark configuration and the sampling loop (src/benchmarker.ts)

The sampling loop of `benchmark` (lines 81–128) is deterministic once the
nondeterministic environment is fixed: the outcome and wall-clock reading of
each sample, and the value of the shared abort flag at every cooperative
checkpoint.  `LoopEnv` supplies exactly those, and `benchmarkLoop` replays the
control flow of the source: abort is only consulted at the top of each
sampling iteration (and once after warmup), an in-flight sample always
finishes, and the early-stop test runs after each pushed sample. -/

def secondsToMilliseconds (seconds : ℚ) : ℚ := seconds * 1000

def megabytesToKilobytes (megabytes : Nat) : Nat := megabytes * 1024

structure BenchmarkConfig where
  warmupIterations : Nat
  minSamples : Nat
  maxSamples : Nat
  maxTime : ℚ
  yieldBetweenSamples : Bool
  maxCodeSize : Nat
  executionTimeout : ℚ
  useWorker : Bool
  deriving DecidableEq, Repr

/-- `DEFAULT_CONFIG` (src/benchmarker.ts lines 21–30). -/
def DEFAULT_CONFIG : BenchmarkConfig :=
  { warmupIterations := 5, minSamples := 10, maxSamples := 100,
    maxTime := secondsToMilliseconds 10, yieldBetweenSamples := true,
    maxCodeSize := megabytesToKilobytes 1,
    executionTimeout := secondsToMilliseconds 1, useWorker := true }

/-- The `validateCode` call of `Benchmarker.benchmark` (line 67):
`this.codeValidator.validateCode(code, this.config.maxCodeSize)`. -/
def benchmarkValidate (config : BenchmarkConfig) (code : List Char) :
    Option ValidationError :=
  validateCode code config.maxCodeSize

structure LoopEnv where
  /-- Result of the i-th measured sample (`runSingleBenchmark`). -/
  outcome : Nat → BenchmarkSample
  /-- `performance.now() - startTime` observed right after the i-th sample. -/
  elapsedAfter : Nat → ℚ
  /-- The abort flag read at the top of sampling iteration i (line 92). -/
  sampleSig : Nat → Bool
  /-- The abort flag read after warmup (line 85). -/
  postWarmupSig : Bool

structure BenchRun where
  samples : List BenchmarkSample
  aborted : Bool
  deriving DecidableEq, Repr

/-- The sampling loop (lines 91–112), with `fuel` iterations left of the
`maxSamples` bound and `i` the current iteration index. -/
def benchmarkLoop (cfg : BenchmarkConfig) (env : LoopEnv) :
    Nat → Nat → List BenchmarkSample → List BenchmarkSample × Bool
  | 0, _, acc => (acc, false)
  | fuel + 1, i, acc =>
    if env.sampleSig i then (acc, true)
    else
      let acc2 := acc ++ [env.outcome i]
      if cfg.minSamples ≤ acc2.length ∧ cfg.maxTime ≤ env.elapsedAfter i then (acc2, false)
      else benchmarkLoop cfg env fuel (i + 1) acc2

/-- `benchmark` after validation: warmup (whose iterations only read the
flag and never touch the sample list), the post-warmup abort check, then the
sampling loop.  The samples and aborted flag of the returned result. -/
def benchmarkRun (cfg : BenchmarkConfig) (env : LoopEnv) : BenchRun :=
  if env.postWarmupSig then { samples := [], aborted := true }
  else
    let r := benchmarkLoop cfg env cfg.maxSamples 0 []
    { samples := r.1, aborted := r.2 }

/-! ## Spec-side definitions

These follow the specification's wording and are compared against the
source-side definitions above in the claim theorems. -/

/-- Spec side: pattern `A` has no match earlier than offset `i`, and any match
of `A` exactly at `i` carries `kind`.  Used to express the "earliest match
wins, regardless of catalog order" property. -/
def MatchesNoEarlier (code : List Char) (i : Nat) (kind : SecurityErrorCode)
    (A : DangerousPattern) : Prop :=
  ∀ r, firstMatch A.matcher code = some r → i ≤ r.1 ∧ (r.1 = i → A.code = kind)

instance (code : List Char) (i : Nat) (kind : SecurityErrorCode) (A : DangerousPattern) :
    Decidable (MatchesNoEarlier code i kind A) :=
  match h : firstMatch A.matcher code with
  | none => isTrue (by intro r hr; rw [h] at hr; cases hr)
  | some r0 =>
    if h2 : i ≤ r0.1 ∧ (r0.1 = i → A.code = kind) then
      isTrue (by intro r hr; rw [h] at hr; cases hr; exact h2)
    else isFalse (fun H => h2 (H r0 h))

/-- Spec side: index of the last `'\n'` in a character list, if any. -/
def lastNlIdx : List Char → Option Nat
  | [] => none
  | c :: cs =>
    match lastNlIdx cs with
    | some j => some (j + 1)
    | none => if c = '\n' then some 0 else none

/-- Spec side: the claimed 1-based column of a match at offset `k`:
`k` minus the index of the last newline before `k`, and `k + 1` when no
newline precedes the match. -/
def claimColumn (code : List Char) (k : Nat) : Nat :=
  match lastNlIdx (code.take k) with
  | some j => k - j
  | none => k + 1

/-- Spec side: a run of whitespace characters (possibly empty). -/
def WSRun (w : List Char) : Prop := ∀ c ∈ w, isSpaceJS c = true

instance (w : List Char) : Decidable (WSRun w) :=
  inferInstanceAs (Decidable (∀ c ∈ w, isSpaceJS c = true))

/-- Spec side: the arithmetic mean. -/
def arithmeticMean (l : List ℚ) : ℚ := l.sum / (l.length : ℚ)

/-- Spec side: the population variance (divisor `N`, not `N - 1`). -/
def populationVariance (l : List ℚ) : ℚ :=
  ((l.map (fun t => (t - arithmeticMean l) * (t - arithmeticMean l))).sum) / (l.length : ℚ)

/-- Spec side: the population standard deviation. -/
noncomputable def populationStdDev (l : List ℚ) : ℝ :=
  Real.sqrt ((populationVariance l : ℚ) : ℝ)

/-- Spec side: the standard even/odd-length median of an (already sorted)
list. -/
def medianOfSorted (s : List ℚ) : ℚ :=
  if s.length % 2 = 0 then (s.getD (s.length / 2 - 1) 0 + s.getD (s.length / 2) 0) / 2
  else s.getD (s.length / 2) 0

/-- The five all-successful samples with times 10, 20, 30, 40, 50 named by the
spec's test vector. -/
def fiveSamples : List BenchmarkSample :=
  [⟨10, true, none⟩, ⟨20, true, none⟩, ⟨30, true, none⟩, ⟨40, true, none⟩, ⟨50, true, none⟩]

/-- 400 copies of the three-UTF-8-byte, one-UTF-16-unit character U+20AC. -/
def euroRun : List Char := List.replicate 400 (Char.ofNat 0x20ac)

/-- 1100 copies of `'a'`: longer than 1024 characters, far below 1024·1024. -/
def aRun : List Char := List.replicate 1100 'a'

/-! ## Properties of the earliest-match scan -/

theorem scanStep_ne_none (code : List Char) (p : DangerousPattern)
    (best : Option (DangerousPattern × Nat × Nat))
    (h : best ≠ none ∨ (firstMatch p.matcher code).isSome = true) :
    scanStep code best p ≠ none := by
  cases hfm : firstMatch p.matcher code with
  | none =>
    rcases h with h | h
    · simpa [scanStep, hfm] using h
    · rw [hfm] at h; simp at h
  | some r =>
    obtain ⟨i, len⟩ := r
    cases best with
    | none => simp [scanStep, hfm]
    | some t =>
      obtain ⟨q, j, jlen⟩ := t
      by_cases hlt : i < j <;> simp [scanStep, hfm, hlt]

theorem foldl_scanStep_ne_none (code : List Char) (ps : List DangerousPattern) :
    ∀ init, init ≠ none → ps.foldl (scanStep code) init ≠ none := by
  induction ps with
  | nil => intro init h; simpa using h
  | cons p ps ih =>
    intro init h
    exact ih _ (scanStep_ne_none code p init (Or.inl h))

theorem foldl_scanStep_some_of_mem (code : List Char) (ps : List DangerousPattern) :
    ∀ init (B : DangerousPattern), B ∈ ps →
      (firstMatch B.matcher code).isSome = true →
      ps.foldl (scanStep code) init ≠ none := by
  induction ps with
  | nil => intro init B hB; cases hB
  | cons p ps ih =>
    intro init B hB hm
    rcases List.mem_cons.mp hB with h | h
    · subst h
      exact foldl_scanStep_ne_none code ps _ (scanStep_ne_none code B init (Or.inr hm))
    · exact ih _ B h hm

theorem foldl_scanStep_sound (code : List Char) :
    ∀ (ps : List DangerousPattern) (init : Option (DangerousPattern × Nat × Nat)),
      (∀ q j l, init = some (q, j, l) → firstMatch q.matcher code = some (j, l)) →
      ∀ p i len, ps.foldl (scanStep code) init = some (p, i, len) →
        firstMatch p.matcher code = some (i, len) ∧
        (∀ A ∈ ps, ∀ j l, firstMatch A.matcher code = some (j, l) → i ≤ j) ∧
        (∀ q j l, init = some (q, j, l) → i ≤ j) ∧
        (p ∈ ps ∨ init = some (p, i, len)) := by
  intro ps
  induction ps with
  | nil =>
    intro init h0 p i len hr
    simp only [List.foldl_nil] at hr
    refine ⟨h0 p i len hr, by simp, ?_, Or.inr hr⟩
    intro q j l hq
    rw [hr] at hq
    cases hq
    exact le_refl _
  | cons p0 ps ih =>
    intro init h0 p i len hr
    simp only [List.foldl_cons] at hr
    cases hfm0 : firstMatch p0.matcher code with
    | none =>
      have hstep : scanStep code init p0 = init := by
        unfold scanStep; rw [hfm0]
      rw [hstep] at hr
      obtain ⟨h1, h2, h3, h4⟩ := ih init h0 p i len hr
      refine ⟨h1, ?_, h3, ?_⟩
      · intro A hA j l hAm
        rcases List.mem_cons.mp hA with h | h
        · subst h; rw [hfm0] at hAm; cases hAm
        · exact h2 A h j l hAm
      · rcases h4 with h | h
        · exact Or.inl (List.mem_cons_of_mem _ h)
        · exact Or.inr h
    | some r0 =>
      obtain ⟨i0, l0⟩ := r0
      cases init with
      | none =>
        have hstep : scanStep code none p0 = some (p0, i0, l0) := by
          unfold scanStep; rw [hfm0]
        rw [hstep] at hr
        have h0' : ∀ q j l, (some (p0, i0, l0) : Option (DangerousPattern × Nat × Nat)) = some (q, j, l) →
            firstMatch q.matcher code = some (j, l) := by
          intro q j l hq; cases hq; exact hfm0
        obtain ⟨h1, h2, h3, h4⟩ := ih _ h0' p i len hr
        refine ⟨h1, ?_, ?_, ?_⟩
        · intro A hA j l hAm
          rcases List.mem_cons.mp hA with h | h
          · subst h
            rw [hfm0] at hAm
            cases hAm
            exact h3 _ _ _ rfl
          · exact h2 A h j l hAm
        · intro q j l hq
          cases hq
        · rcases h4 with h | h
          · exact Or.inl (List.mem_cons_of_mem _ h)
          · cases h; exact Or.inl (List.mem_cons_self _ _)
      | some t0 =>
        obtain ⟨q0, j0, jl0⟩ := t0
        have hq0 : firstMatch q0.matcher code = some (j0, jl0) := h0 q0 j0 jl0 rfl
        by_cases hlt : i0 < j0
        · have hstep : scanStep code (some (q0, j0, jl0)) p0 = some (p0, i0, l0) := by
            unfold scanStep; rw [hfm0]; simp [hlt]
          rw [hstep] at hr
          have h0' : ∀ q j l, (some (p0, i0, l0) : Option (DangerousPattern × Nat × Nat)) = some (q, j, l) →
              firstMatch q.matcher code = some (j, l) := by
            intro q j l hq; cases hq; exact hfm0
          obtain ⟨h1, h2, h3, h4⟩ := ih _ h0' p i len hr
          have hii0 : i ≤ i0 := h3 p0 i0 l0 rfl
          refine ⟨h1, ?_, ?_, ?_⟩
          · intro A hA j l hAm
            rcases List.mem_cons.mp hA with h | h
            · subst h; rw [hfm0] at hAm; cases hAm; exact hii0
            · exact h2 A h j l hAm
          · intro q j l hq
            cases hq
            exact le_trans hii0 (le_of_lt hlt)
          · rcases h4 with h | h
            · exact Or.inl (List.mem_cons_of_mem _ h)
            · cases h; exact Or.inl (List.mem_cons_self _ _)
        · have hstep : scanStep code (some (q0, j0, jl0)) p0 = some (q0, j0, jl0) := by
            unfold scanStep; rw [hfm0]; simp [hlt]
          rw [hstep] at hr
          obtain ⟨h1, h2, h3, h4⟩ := ih _ h0 p i len hr
          have hij0 : i ≤ j0 := h3 q0 j0 jl0 rfl
          refine ⟨h1, ?_, ?_, ?_⟩
          · intro A hA j l hAm
            rcases List.mem_cons.mp hA with h | h
            · subst h
              rw [hfm0] at hAm
              cases hAm
              exact le_trans hij0 (not_lt.mp hlt)
            · exact h2 A h j l hAm
          · intro q j l hq
            cases hq
            exact hij0
          · rcases h4 with h | h
            · exact Or.inl (List.mem_cons_of_mem _ h)
            · exact Or.inr h

theorem foldl_scanStep_id (code : List Char) (ps : List DangerousPattern)
    (h : ∀ A ∈ ps, firstMatch A.matcher code = none) :
    ∀ init, ps.foldl (scanStep code) init = init := by
  induction ps with
  | nil => intro init; rfl
  | cons p ps ih =>
    intro init
    have hp : firstMatch p.matcher code = none := h p (List.mem_cons_self _ _)
    have hstep : scanStep code init p = init := by unfold scanStep; rw [hp]
    simp only [List.foldl_cons, hstep]
    exact ih (fun A hA => h A (List.mem_cons_of_mem _ hA)) init

theorem scanEarliest_none (ps : List DangerousPattern) (code : List Char)
    (h : ∀ A ∈ ps, firstMatch A.matcher code = none) :
    scanEarliest ps code = none :=
  foldl_scanStep_id code ps h none

theorem firstMatchAux_le (m : Matcher) :
    ∀ (s : List Char) (prev : Option Char) (i : Nat) (r : Nat × Nat),
      firstMatchAux m prev i s = some r → i ≤ r.1 := by
  intro s
  induction s with
  | nil =>
    intro prev i r h
    cases hm : m prev [] with
    | some len => rw [firstMatchAux, hm] at h; cases h; exact le_refl _
    | none => rw [firstMatchAux, hm] at h; cases h
  | cons c cs ih =>
    intro prev i r h
    cases hm : m prev (c :: cs) with
    | some len => rw [firstMatchAux, hm] at h; cases h; exact le_refl _
    | none =>
      rw [firstMatchAux, hm] at h
      exact le_trans (Nat.le_succ i) (ih (some c) (i + 1) r h)

theorem firstMatch_zero_of (m : Matcher) (code : List Char) (len : Nat)
    (h : m none code = some len) : firstMatch m code = some (0, len) := by
  cases code with
  | nil => simp only [firstMatch, firstMatchAux, h]
  | cons c cs => simp only [firstMatch, firstMatchAux, h]

theorem firstMatch_zero_inv (m : Matcher) (code : List Char) (len : Nat)
    (h : firstMatch m code = some (0, len)) : m none code = some len := by
  cases code with
  | nil =>
    rw [firstMatch, firstMatchAux] at h
    cases hm : m none [] with
    | some l => rw [hm] at h; simpa using h
    | none => rw [hm] at h; cases h
  | cons c cs =>
    rw [firstMatch, firstMatchAux] at h
    cases hm : m none (c :: cs) with
    | some l => rw [hm] at h; simpa using h
    | none =>
      rw [hm] at h
      have := firstMatchAux_le m cs (some c) 1 (0, len) h
      simp at this

/-! ## The validator: claim theorems C1–C3 -/

theorem validateCodeWith_of_scan (ps : List DangerousPattern) (code : List Char)
    (maxSize : Nat) (p : DangerousPattern) (i len : Nat)
    (hs : ¬(jsLength code > maxSize))
    (hscan : scanEarliest ps code = some (p, i, len)) :
    validateCodeWith ps code maxSize =
      some (.security p.code (splitNl (code.take i)).length
        (((splitNl (code.take i)).getLastD []).length + 1)
        (trimJS ((code.drop i).take len))) := by
  unfold validateCodeWith
  rw [if_neg hs, hscan]

/-- C1. For every in-limit code string, if catalog entry `B` matches at offset
`iB` and every catalog entry's first match is no earlier than `iB` (with any
match exactly at `iB` carrying `B`'s kind), then `validateCode` throws the
security error whose kind is `B`'s kind, reporting the line of offset `iB` —
for an arbitrary ordering `ps` of the catalog, hence regardless of the
relative order of the entries. -/
theorem c1_earliest_match_wins (ps : List DangerousPattern) (code : List Char)
    (maxSize : Nat) (B : DangerousPattern) (iB lB : Nat)
    (hB : B ∈ ps)
    (hsize : ¬(jsLength code > maxSize))
    (hm : firstMatch B.matcher code = some (iB, lB))
    (hmin : ∀ A ∈ ps, MatchesNoEarlier code iB B.code A) :
    ∃ mt, validateCodeWith ps code maxSize =
      some (.security B.code (splitNl (code.take iB)).length
        (((splitNl (code.take iB)).getLastD []).length + 1) mt) := by
  have hne : scanEarliest ps code ≠ none :=
    foldl_scanStep_some_of_mem code ps none B hB (by rw [hm]; rfl)
  obtain ⟨t, ht⟩ := Option.ne_none_iff_exists'.mp hne
  obtain ⟨p, i, len⟩ := t
  obtain ⟨h1, h2, -, h4⟩ :=
    foldl_scanStep_sound code ps none (by intro q j l hq; cases hq) p i len ht
  have hpmem : p ∈ ps := by
    rcases h4 with h | h
    · exact h
    · cases h
  have hiB : i ≤ iB := h2 B hB iB lB hm
  obtain ⟨hge, htie⟩ := hmin p hpmem (i, len) h1
  have hieq : i = iB := le_antisymm hiB hge
  subst hieq
  have hkind : p.code = B.code := htie rfl
  refine ⟨trimJS ((code.drop i).take len), ?_⟩
  rw [validateCodeWith_of_scan ps code maxSize p i len hsize ht, hkind]

set_option maxRecDepth 10000

/-- Witness for C1: in `fetch(a);eval(b)` the fetch pattern matches at offset
0 and the eval pattern at offset 9, so the fetch error (kind
`FETCH_USAGE`, line 1) is the one thrown. -/
theorem c1_earliest_match_wins_witness :
    ∃ mt, validateCodeWith dangerousPatterns (("fetch(a);eval(b)").data) 1024 =
      some (.security SecurityErrorCode.FETCH_USAGE 1 1 mt) :=
  c1_earliest_match_wins dangerousPatterns (("fetch(a);eval(b)").data) 1024 pFetch 0 6
    (by simp [dangerousPatterns]) (by decide) (by decide) (by decide)

/-- C2 (amended): `validateCode` returns without throwing on every in-limit
code string in which no catalog pattern matches; but because the scan is
textual, it does throw on some well-formed snippets that use none of the
forbidden constructs (see the counterexample: a call of a user identifier
ending in `Function`, and a `RegExp.exec` method call). -/
theorem c2_no_match_no_throw (code : List Char) (maxSize : Nat)
    (hsize : ¬(jsLength code > maxSize))
    (hnone : ∀ A ∈ dangerousPatterns, firstMatch A.matcher code = none) :
    validateCode code maxSize = none := by
  unfold validateCode validateCodeWith
  rw [if_neg hsize, scanEarliest_none dangerousPatterns code hnone]

/-- Witness for C2: the pattern-free snippet `const x = 1 + 2;` passes. -/
theorem c2_no_match_no_throw_witness :
    validateCode (("const x = 1 + 2;").data) 1024 = none :=
  c2_no_match_no_throw (("const x = 1 + 2;").data) 1024 (by decide) (by decide)

/-- Counterexample for C2 as stated: `myFunction(1)` is a well-formed snippet
that merely calls a user-defined identifier — it contains no dynamic code
execution and none of the catalog's forbidden constructs — yet `validateCode`
throws `FUNCTION_CONSTRUCTOR` because `/Function\s*\(/` matches inside the
identifier; likewise `re.exec(s)`, a `RegExp.prototype.exec` call, is thrown
as `CHILD_PROCESS_USAGE`. -/
theorem c2_counterexample :
    validateCode (("myFunction(1)").data) (1024 * 1024) =
      some (.security SecurityErrorCode.FUNCTION_CONSTRUCTOR 1 3 (("Function(").data)) ∧
    validateCode (("re.exec(s)").data) (1024 * 1024) =
      some (.security SecurityErrorCode.CHILD_PROCESS_USAGE 1 4 (("exec(").data)) := by
  constructor <;> decide

/-- C3: the size gate runs before the pattern scan — every code string whose
length exceeds `maxSize` fails with the size-exceeded failure carrying the
configured limit (whatever patterns the string contains) — and that failure
is a distinct kind, not one of the `SecurityErrorCode`-carrying failures. -/
theorem c3_size_gate_first (code : List Char) (maxSize : Nat)
    (hsize : jsLength code > maxSize) :
    validateCode code maxSize = some (.sizeExceeded maxSize) ∧
    ∀ k line col mt, (ValidationError.sizeExceeded maxSize) ≠ .security k line col mt := by
  constructor
  · unfold validateCode validateCodeWith
    rw [if_pos hsize]
  · intro k line col mt h
    cases h

/-- Witness for C3: `eval(x)` against limit 4 is oversized and contains
`eval(`, and the failure is the size error, not the eval error. -/
theorem c3_size_gate_first_witness :
    validateCode (("eval(x)").data) 4 = some (.sizeExceeded 4) ∧
    ∀ k line col mt, (ValidationError.sizeExceeded 4) ≠ .security k line col mt :=
  c3_size_gate_first (("eval(x)").data) 4 (by decide)

/-! ## Line and column reporting (claim C5) -/

theorem splitNl_ne_nil (l : List Char) : splitNl l ≠ [] := by
  induction l with
  | nil => simp [splitNl]
  | cons c cs ih =>
    by_cases h : c = '\n'
    · simp [splitNl, h]
    · simp only [splitNl, if_neg h]
      cases hs : splitNl cs <;> simp

theorem splitNl_length (l : List Char) : (splitNl l).length = l.count '\n' + 1 := by
  induction l with
  | nil => simp [splitNl]
  | cons c cs ih =>
    by_cases h : c = '\n'
    · subst h
      simp [splitNl, ih, List.count_cons]
    · simp only [splitNl, if_neg h]
      cases hs : splitNl cs with
      | nil => exact absurd hs (splitNl_ne_nil cs)
      | cons l0 ls =>
        rw [hs] at ih
        simpa [List.count_cons, Ne.symm h] using ih

theorem lastNlIdx_none_iff (l : List Char) : lastNlIdx l = none ↔ '\n' ∉ l := by
  induction l with
  | nil => simp [lastNlIdx]
  | cons c cs ih =>
    simp only [lastNlIdx]
    cases hs : lastNlIdx cs with
    | some j =>
      simp only []
      constructor
      · intro h; cases h
      · intro h
        exact absurd (ih.mpr (fun hm => h (List.mem_cons_of_mem _ hm))) (by rw [hs]; simp)
    | none =>
      by_cases hc : c = '\n'
      · simp [hc]
      · simp [hc, Ne.symm hc, ih.mp hs]

theorem splitNl_single (l : List Char) (h : lastNlIdx l = none) : splitNl l = [l] := by
  induction l with
  | nil => simp [splitNl]
  | cons c cs ih =>
    have hmem := (lastNlIdx_none_iff _).mp h
    have hc : ¬(c = '\n') := fun he => hmem (by rw [he]; exact List.mem_cons_self _ _)
    have hcs : lastNlIdx cs = none :=
      (lastNlIdx_none_iff _).mpr (fun hm => hmem (List.mem_cons_of_mem _ hm))
    simp [splitNl, hc, ih hcs]

theorem lastNlIdx_lt (l : List Char) : ∀ j, lastNlIdx l = some j → j < l.length := by
  induction l with
  | nil => intro j h; cases h
  | cons c cs ih =>
    intro j h
    simp only [lastNlIdx] at h
    cases hs : lastNlIdx cs with
    | some j' =>
      rw [hs] at h
      cases h
      exact Nat.succ_lt_succ (ih j' hs)
    | none =>
      rw [hs] at h
      by_cases hc : c = '\n'
      · rw [if_pos hc] at h; cases h; simp
      · rw [if_neg hc] at h; cases h

theorem splitNl_getLastD_none (l : List Char) (h : lastNlIdx l = none) :
    ((splitNl l).getLastD []).length = l.length := by
  rw [splitNl_single l h]
  rfl

theorem getLastD_irrel : ∀ (l : List (List Char)) (d1 d2 : List Char),
    l ≠ [] → l.getLastD d1 = l.getLastD d2 := by
  intro l d1 d2 h
  cases l with
  | nil => exact absurd rfl h
  | cons a t => rw [List.getLastD_cons, List.getLastD_cons]

theorem lastNlIdx_some_mem (l : List Char) (j : Nat) (h : lastNlIdx l = some j) :
    '\n' ∈ l := by
  by_contra hm
  rw [(lastNlIdx_none_iff l).mpr hm] at h
  cases h

theorem splitNl_getLastD_some (l : List Char) :
    ∀ j, lastNlIdx l = some j → ((splitNl l).getLastD []).length = l.length - j - 1 := by
  induction l with
  | nil => intro j h; cases h
  | cons c cs ih =>
    intro j h
    simp only [lastNlIdx] at h
    cases hs : lastNlIdx cs with
    | some j' =>
      rw [hs] at h
      cases h
      have hmem : '\n' ∈ cs := lastNlIdx_some_mem cs j' hs
      have hcnt : 0 < cs.count '\n' := List.count_pos_iff.mpr hmem
      have hlen := splitNl_length cs
      have hIH := ih j' hs
      cases hsp : splitNl cs with
      | nil => exact absurd hsp (splitNl_ne_nil cs)
      | cons l0 ls =>
        rw [hsp] at hlen hIH
        have hls : ls ≠ [] := by
          intro he
          rw [he] at hlen
          simp at hlen
          omega
        rw [List.getLastD_cons] at hIH
        by_cases hc : c = '\n'
        · subst hc
          have hrw : splitNl ('\n' :: cs) = [] :: l0 :: ls := by
            simp [splitNl, hsp]
          rw [hrw, List.getLastD_cons, List.getLastD_cons, hIH]
          simp only [List.length_cons]
          omega
        · have hrw : splitNl (c :: cs) = (c :: l0) :: ls := by
            simp [splitNl, hsp, hc]
          rw [hrw, List.getLastD_cons, getLastD_irrel ls (c :: l0) l0 hls, hIH]
          simp only [List.length_cons]
          omega
    | none =>
      rw [hs] at h
      by_cases hc : c = '\n'
      · rw [if_pos hc] at h
        cases h
        subst hc
        have hrw : splitNl ('\n' :: cs) = [] :: [cs] := by
          simp [splitNl, splitNl_single cs hs]
        rw [hrw, List.getLastD_cons, List.getLastD_cons]
        simp
      · rw [if_neg hc] at h; cases h

/-- C5: when the earliest match sits at offset `k`, the thrown error reports
the 1-based line `1 +` (number of newlines strictly before `k`) and the
1-based column `k −` (index of the last newline before `k`), which is `k + 1`
when no newline precedes the match. -/
theorem c5_line_column_report (code : List Char) (maxSize : Nat)
    (p : DangerousPattern) (k len : Nat)
    (hsize : ¬(jsLength code > maxSize)) (hk : k ≤ code.length)
    (hscan : scanEarliest dangerousPatterns code = some (p, k, len)) :
    validateCode code maxSize =
      some (.security p.code ((code.take k).count '\n' + 1) (claimColumn code k)
        (trimJS ((code.drop k).take len))) := by
  have h := validateCodeWith_of_scan dangerousPatterns code maxSize p k len hsize hscan
  rw [validateCode, h, splitNl_length]
  have htk : (code.take k).length = k := by
    rw [List.length_take]
    omega
  cases hn : lastNlIdx (code.take k) with
  | none =>
    rw [claimColumn, hn, splitNl_getLastD_none _ hn, htk]
  | some j =>
    have hjk : j < k := by
      have := lastNlIdx_lt _ j hn
      omega
    rw [claimColumn, hn, splitNl_getLastD_some _ j hn, htk]
    have : k - j - 1 + 1 = k - j := by omega
    rw [this]

/-- Witness for C5: in `a\nb\neval(x)` the eval pattern matches at offset 4,
two newlines precede it, and the error reports line 3, column 1. -/
theorem c5_line_column_report_witness :
    validateCode (("a\nb\neval(x)").data) 1024 =
      some (.security SecurityErrorCode.EVAL_USAGE 3 1 (("eval(").data)) := by
  have h := c5_line_column_report (("a\nb\neval(x)").data) 1024 pEval 4 5
    (by decide) (by decide) (by rfl)
  exact h

/-! ## Statistics (claims C6, C7) -/

theorem foldl_add_shift (l : List ℚ) : ∀ a : ℚ,
    l.foldl (fun sum t => sum + t) a = a + l.sum := by
  induction l with
  | nil => intro a; simp
  | cons t ts ih =>
    intro a
    rw [List.foldl_cons, ih, List.sum_cons]
    ring

theorem foldl_addf_shift (f : ℚ → ℚ) (l : List ℚ) : ∀ a : ℚ,
    l.foldl (fun sum t => sum + f t) a = a + (l.map f).sum := by
  induction l with
  | nil => intro a; simp
  | cons t ts ih =>
    intro a
    rw [List.foldl_cons, ih, List.map_cons, List.sum_cons]
    ring

theorem foldl_min_le_init (l : List ℚ) : ∀ a : ℚ, l.foldl min a ≤ a := by
  induction l with
  | nil => intro a; exact le_refl a
  | cons t ts ih =>
    intro a
    exact le_trans (ih (min a t)) (min_le_left a t)

theorem foldl_min_le_mem (l : List ℚ) : ∀ (a t : ℚ), t ∈ l → l.foldl min a ≤ t := by
  induction l with
  | nil => intro a t h; cases h
  | cons u ts ih =>
    intro a t h
    rcases List.mem_cons.mp h with h | h
    · subst h
      exact le_trans (foldl_min_le_init ts (min a t)) (min_le_right a t)
    · exact ih (min a u) t h

theorem foldl_min_mem_or (l : List ℚ) : ∀ a : ℚ,
    l.foldl min a = a ∨ l.foldl min a ∈ l := by
  induction l with
  | nil => intro a; exact Or.inl rfl
  | cons t ts ih =>
    intro a
    rcases ih (min a t) with h | h
    · rcases min_choice a t with hm | hm
      · rw [List.foldl_cons, h, hm]
        exact Or.inl rfl
      · rw [List.foldl_cons, h, hm]
        exact Or.inr (List.mem_cons_self _ _)
    · exact Or.inr (List.mem_cons_of_mem _ h)

theorem foldl_max_le_init (l : List ℚ) : ∀ a : ℚ, a ≤ l.foldl max a := by
  induction l with
  | nil => intro a; exact le_refl a
  | cons t ts ih =>
    intro a
    exact le_trans (le_max_left a t) (ih (max a t))

theorem foldl_max_le_mem (l : List ℚ) : ∀ (a t : ℚ), t ∈ l → t ≤ l.foldl max a := by
  induction l with
  | nil => intro a t h; cases h
  | cons u ts ih =>
    intro a t h
    rcases List.mem_cons.mp h with h | h
    · subst h
      exact le_trans (le_max_right a t) (foldl_max_le_init ts (max a t))
    · exact ih (max a u) t h

theorem foldl_max_mem_or (l : List ℚ) : ∀ a : ℚ,
    l.foldl max a = a ∨ l.foldl max a ∈ l := by
  induction l with
  | nil => intro a; exact Or.inl rfl
  | cons t ts ih =>
    intro a
    rcases ih (max a t) with h | h
    · rcases max_choice a t with hm | hm
      · rw [List.foldl_cons, h, hm]
        exact Or.inl rfl
      · rw [List.foldl_cons, h, hm]
        exact Or.inr (List.mem_cons_self _ _)
    · exact Or.inr (List.mem_cons_of_mem _ h)

theorem jsMinL_mem (l : List ℚ) (h : l ≠ []) : jsMinL l ∈ l := by
  cases l with
  | nil => exact absurd rfl h
  | cons t ts =>
    rcases foldl_min_mem_or ts t with h1 | h1
    · rw [jsMinL, h1]
      exact List.mem_cons_self _ _
    · exact List.mem_cons_of_mem _ h1

theorem jsMinL_le (l : List ℚ) (t : ℚ) (ht : t ∈ l) : jsMinL l ≤ t := by
  cases l with
  | nil => cases ht
  | cons u ts =>
    rcases List.mem_cons.mp ht with h | h
    · subst h
      exact foldl_min_le_init ts t
    · exact foldl_min_le_mem ts u t h

theorem jsMaxL_mem (l : List ℚ) (h : l ≠ []) : jsMaxL l ∈ l := by
  cases l with
  | nil => exact absurd rfl h
  | cons t ts =>
    rcases foldl_max_mem_or ts t with h1 | h1
    · rw [jsMaxL, h1]
      exact List.mem_cons_self _ _
    · exact List.mem_cons_of_mem _ h1

theorem jsMaxL_le (l : List ℚ) (t : ℚ) (ht : t ∈ l) : t ≤ jsMaxL l := by
  cases l with
  | nil => cases ht
  | cons u ts =>
    rcases List.mem_cons.mp ht with h | h
    · subst h
      exact foldl_max_le_init ts t
    · exact foldl_max_le_mem ts u t h

/-- C6: on any sample sequence with at least one success, `calculateStats`
returns the arithmetic mean of the successful times, the standard even/odd
median of the sorted successful times, the population (divisor `N`) variance
and standard deviation, the extrema, `1000/mean` operations per second when
`mean > 0` (else 0) and `standardDeviation/mean` as coefficient of variation
when `mean > 0` (else 0); on the five successful samples
`[10, 20, 30, 40, 50]` it yields mean 30, median 30, min 10, max 50,
5 successful and 0 failed samples. -/
theorem c6_stats_formulas :
    (∀ samples : List BenchmarkSample, successTimes samples ≠ [] →
      (calculateStats samples).mean = arithmeticMean (successTimes samples) ∧
      (calculateStats samples).median =
        medianOfSorted ((successTimes samples).insertionSort (fun a b => a ≤ b)) ∧
      (calculateStats samples).variance = populationVariance (successTimes samples) ∧
      (calculateStats samples).standardDeviation = populationStdDev (successTimes samples) ∧
      ((calculateStats samples).min ∈ successTimes samples ∧
        ∀ t ∈ successTimes samples, (calculateStats samples).min ≤ t) ∧
      ((calculateStats samples).max ∈ successTimes samples ∧
        ∀ t ∈ successTimes samples, t ≤ (calculateStats samples).max) ∧
      (calculateStats samples).operationsPerSecond =
        (if 0 < (calculateStats samples).mean then 1000 / (calculateStats samples).mean else 0) ∧
      (calculateStats samples).coefficientOfVariation =
        (if 0 < (calculateStats samples).mean then
          (calculateStats samples).standardDeviation / ((calculateStats samples).mean : ℝ)
        else 0)) ∧
    ((calculateStats fiveSamples).mean = 30 ∧ (calculateStats fiveSamples).median = 30 ∧
      (calculateStats fiveSamples).min = 10 ∧ (calculateStats fiveSamples).max = 50 ∧
      (calculateStats fiveSamples).successfulSamples = 5 ∧
      (calculateStats fiveSamples).failedSamples = 0) := by
  constructor
  · intro samples h
    have hlen : ¬((successTimes samples).length = 0) := by simpa using h
    have hmean : (calculateStats samples).mean = arithmeticMean (successTimes samples) := by
      simp only [calculateStats, if_neg hlen]
      rw [foldl_add_shift, zero_add, arithmeticMean]
    have hvar : (calculateStats samples).variance =
        populationVariance (successTimes samples) := by
      simp only [calculateStats, if_neg hlen]
      rw [foldl_addf_shift, zero_add, populationVariance]
      simp only [foldl_add_shift, zero_add, arithmeticMean]
    refine ⟨hmean, ?_, hvar, ?_, ⟨?_, ?_⟩, ⟨?_, ?_⟩, ?_, rfl⟩
    · simp only [calculateStats, if_neg hlen]
      rw [medianOfSorted]
    · rw [BenchmarkStats.standardDeviation, populationStdDev, hvar]
    · simp only [calculateStats, if_neg hlen]
      exact jsMinL_mem _ h
    · intro t ht
      simp only [calculateStats, if_neg hlen]
      exact jsMinL_le _ t ht
    · simp only [calculateStats, if_neg hlen]
      exact jsMaxL_mem _ h
    · intro t ht
      simp only [calculateStats, if_neg hlen]
      exact jsMaxL_le _ t ht
    · simp only [calculateStats, if_neg hlen]
  · refine ⟨?_, rfl, rfl, rfl, rfl, rfl⟩
    norm_num [calculateStats, successTimes, fiveSamples]

/-- Witness for C6: the general part applied to the concrete five-sample run. -/
theorem c6_stats_formulas_witness :
    (calculateStats fiveSamples).mean = arithmeticMean (successTimes fiveSamples) ∧
    (calculateStats fiveSamples).median =
      medianOfSorted ((successTimes fiveSamples).insertionSort (fun a b => a ≤ b)) ∧
    (calculateStats fiveSamples).variance = populationVariance (successTimes fiveSamples) ∧
    (calculateStats fiveSamples).standardDeviation = populationStdDev (successTimes fiveSamples) ∧
    ((calculateStats fiveSamples).min ∈ successTimes fiveSamples ∧
      ∀ t ∈ successTimes fiveSamples, (calculateStats fiveSamples).min ≤ t) ∧
    ((calculateStats fiveSamples).max ∈ successTimes fiveSamples ∧
      ∀ t ∈ successTimes fiveSamples, t ≤ (calculateStats fiveSamples).max) ∧
    (calculateStats fiveSamples).operationsPerSecond =
      (if 0 < (calculateStats fiveSamples).mean then 1000 / (calculateStats fiveSamples).mean
       else 0) ∧
    (calculateStats fiveSamples).coefficientOfVariation =
      (if 0 < (calculateStats fiveSamples).mean then
        (calculateStats fiveSamples).standardDeviation / ((calculateStats fiveSamples).mean : ℝ)
      else 0) :=
  c6_stats_formulas.1 fiveSamples (by decide)

/-- C7: `calculateStats` always satisfies `successfulSamples + failedSamples =`
total sample count, and when there are zero successful samples every duration
field is zero, operations per second and coefficient of variation are zero,
and `failedSamples` is the total count. -/
theorem c7_stats_invariants (samples : List BenchmarkSample) :
    (calculateStats samples).successfulSamples + (calculateStats samples).failedSamples =
      samples.length ∧
    ((calculateStats samples).successfulSamples = 0 →
      (calculateStats samples).mean = 0 ∧ (calculateStats samples).median = 0 ∧
      (calculateStats samples).variance = 0 ∧
      (calculateStats samples).standardDeviation = 0 ∧
      (calculateStats samples).min = 0 ∧ (calculateStats samples).max = 0 ∧
      (calculateStats samples).operationsPerSecond = 0 ∧
      (calculateStats samples).coefficientOfVariation = 0 ∧
      (calculateStats samples).failedSamples = samples.length) := by
  by_cases hz : (successTimes samples).length = 0
  · constructor
    · simp [calculateStats, hz]
    · intro _
      refine ⟨?_, ?_, ?_, ?_, ?_, ?_, ?_, ?_, ?_⟩ <;>
        simp [calculateStats, hz, BenchmarkStats.standardDeviation,
          BenchmarkStats.coefficientOfVariation]
  · have hsc : (calculateStats samples).successfulSamples =
        (samples.filter (fun s => s.success)).length := by
      simp [calculateStats, hz]
    have hfc : (calculateStats samples).failedSamples =
        samples.length - (samples.filter (fun s => s.success)).length := by
      simp [calculateStats, hz]
    have hle : (samples.filter (fun s => s.success)).length ≤ samples.length :=
      List.length_filter_le _ _
    constructor
    · rw [hsc, hfc]
      omega
    · intro h0
      rw [hsc] at h0
      have : (successTimes samples).length = 0 := by
        rw [successTimes, List.length_map, h0]
      exact absurd this hz

/-- Witness for C7: the empty sample list — zero successes, all fields zero. -/
theorem c7_stats_invariants_witness :
    ((calculateStats []).successfulSamples + (calculateStats []).failedSamples =
      ([] : List BenchmarkSample).length) ∧
    (calculateStats []).mean = 0 ∧ (calculateStats []).median = 0 ∧
    (calculateStats []).variance = 0 ∧ (calculateStats []).standardDeviation = 0 ∧
    (calculateStats []).min = 0 ∧ (calculateStats []).max = 0 ∧
    (calculateStats []).operationsPerSecond = 0 ∧
    (calculateStats []).coefficientOfVariation = 0 ∧
    (calculateStats []).failedSamples = ([] : List BenchmarkSample).length :=
  ⟨(c7_stats_invariants []).1, (c7_stats_invariants []).2 (by decide)⟩

/-! ## Comparison (claim C8) -/

/-- C8: `compare`'s derived quantities — `relativeDifference` is
`(baselineMean − candidateMean)/baselineMean` when both means are positive and
0 otherwise; `significanceLevel` is `max(0, 1 − max(baselineCV, candidateCV))`;
and the summary chooses the "negligible" sentence exactly when the absolute
percent change is below 1, otherwise reports the percent change with
"faster"/"slower" by the sign of the relative difference, with confidence
"high" above 0.7 significance, "medium" above 0.4, else "low". -/
theorem c8_compare_formulas (baseline candidate : StatsView) :
    (compareOutcome baseline candidate).relativeDifference =
      (if 0 < baseline.mean ∧ 0 < candidate.mean then
        (baseline.mean - candidate.mean) / baseline.mean
      else 0) ∧
    (compareOutcome baseline candidate).significanceLevel =
      max 0 (1 - max baseline.coefficientOfVariation candidate.coefficientOfVariation) ∧
    (compareOutcome baseline candidate).summary =
      (if |(compareOutcome baseline candidate).relativeDifference * 100| < 1 then
        "Performance difference is negligible (" ++
          (if (7 : ℚ) / 10 < (compareOutcome baseline candidate).significanceLevel then "high"
           else if (2 : ℚ) / 5 < (compareOutcome baseline candidate).significanceLevel then
             "medium"
           else "low") ++ " confidence)"
      else
        "Comparison is " ++
          toFixed1 |(compareOutcome baseline candidate).relativeDifference * 100| ++ "% " ++
          (if 0 < (compareOutcome baseline candidate).relativeDifference then "faster"
           else "slower") ++ " (" ++
          (if (7 : ℚ) / 10 < (compareOutcome baseline candidate).significanceLevel then "high"
           else if (2 : ℚ) / 5 < (compareOutcome baseline candidate).significanceLevel then
             "medium"
           else "low") ++ " confidence)") := by
  refine ⟨?_, rfl, rfl⟩
  simp only [compareOutcome]
  exact if_congr and_comm rfl rfl

/-! ## The sampling loop and cooperative abort (claim C9) -/

theorem benchmarkLoop_abort (cfg : BenchmarkConfig) (env : LoopEnv) :
    ∀ (k fuel i : Nat) (acc : List BenchmarkSample),
      k < fuel →
      (∀ j, j < k → env.sampleSig (i + j) = false ∧
        ¬(cfg.minSamples ≤ acc.length + j + 1 ∧ cfg.maxTime ≤ env.elapsedAfter (i + j))) →
      env.sampleSig (i + k) = true →
      benchmarkLoop cfg env fuel i acc =
        (acc ++ (List.range k).map (fun j => env.outcome (i + j)), true) := by
  intro k
  induction k with
  | zero =>
    intro fuel i acc hk hpre hsig
    cases fuel with
    | zero => omega
    | succ f =>
      rw [benchmarkLoop]
      rw [show i + 0 = i from rfl] at hsig
      rw [hsig]
      simp
  | succ k ih =>
    intro fuel i acc hk hpre hsig
    cases fuel with
    | zero => omega
    | succ f =>
      have h0 := hpre 0 (Nat.succ_pos k)
      rw [show i + 0 = i from rfl] at h0
      rw [benchmarkLoop, h0.1]
      simp only [Bool.false_eq_true, if_false]
      have hstop : ¬(cfg.minSamples ≤ (acc ++ [env.outcome i]).length ∧
          cfg.maxTime ≤ env.elapsedAfter i) := by
        have := h0.2
        simpa [List.length_append] using this
      rw [if_neg hstop]
      have hrec := ih f (i + 1) (acc ++ [env.outcome i]) (by omega)
        (fun j hj => by
          have := hpre (j + 1) (by omega)
          constructor
          · have h1 := this.1
            rw [show i + (j + 1) = i + 1 + j by omega] at h1
            exact h1
          · have h2 := this.2
            simp only [List.length_append, List.length_cons, List.length_nil]
            rw [show i + 1 + j = i + (j + 1) by omega]
            intro hcontra
            exact h2 ⟨by omega, hcontra.2⟩)
        (by rw [show i + 1 + k = i + (k + 1) by omega]; exact hsig)
      rw [hrec]
      have hmaps : List.map (fun j => env.outcome (i + 1 + j)) (List.range k) =
          List.map ((fun j => env.outcome (i + j)) ∘ Nat.succ) (List.range k) := by
        apply List.map_congr_left
        intro j _
        simp only [Function.comp]
        congr 1
        omega
      rw [List.range_succ_eq_map, List.map_cons, List.map_map,
        show i + 0 = i from rfl, hmaps, List.append_assoc, List.singleton_append]

/-- C9: for every abort-signal timeline — abort observed first at the top of
sampling iteration `k`, with the loop's natural stop conditions not firing
before — the run returns exactly the `k` samples accumulated before the abort
check, with `aborted = true`, as a value (the model is a total function:
nothing is thrown to the caller); and an abort observed at the post-warmup
check returns an empty, aborted result.  In both cases the in-flight sample is
never interrupted (outcomes enter the result only as whole samples) and no new
sample starts after the signal is seen. -/
theorem c9_abort_partial_result :
    (∀ (cfg : BenchmarkConfig) (env : LoopEnv) (k : Nat),
      k < cfg.maxSamples →
      (∀ j, j < k → env.sampleSig j = false ∧
        ¬(cfg.minSamples ≤ j + 1 ∧ cfg.maxTime ≤ env.elapsedAfter j)) →
      env.sampleSig k = true →
      env.postWarmupSig = false →
      benchmarkRun cfg env =
        { samples := (List.range k).map env.outcome, aborted := true }) ∧
    (∀ (cfg : BenchmarkConfig) (env : LoopEnv), env.postWarmupSig = true →
      benchmarkRun cfg env = { samples := [], aborted := true }) := by
  constructor
  · intro cfg env k hk hpre hsig hpw
    rw [benchmarkRun, hpw]
    simp only [Bool.false_eq_true, if_false]
    have h := benchmarkLoop_abort cfg env k cfg.maxSamples 0 [] hk
      (fun j hj => by
        have := hpre j hj
        constructor
        · rw [show (0 : Nat) + j = j from Nat.zero_add j]
          exact this.1
        · simpa [Nat.zero_add] using this.2)
      (by rw [Nat.zero_add]; exact hsig)
    rw [h]
    simp only [List.nil_append]
    congr 1
    apply List.map_congr_left
    intro j _
    rw [Nat.zero_add]
  · intro cfg env hpw
    rw [benchmarkRun, hpw]
    simp

/-- Witness for C9: with the abort flag first raised at the top of sampling
iteration 2 (under the default bounds, far from the natural stop conditions),
the run returns the first two samples and `aborted = true`. -/
theorem c9_abort_partial_result_witness :
    benchmarkRun
      { warmupIterations := 5, minSamples := 10, maxSamples := 100, maxTime := 10000,
        yieldBetweenSamples := true, maxCodeSize := 1024, executionTimeout := 1000,
        useWorker := true }
      { outcome := fun i => ⟨(i : ℚ), true, none⟩, elapsedAfter := fun i => (i : ℚ),
        sampleSig := fun i => decide (2 ≤ i), postWarmupSig := false } =
      { samples := [⟨0, true, none⟩, ⟨1, true, none⟩], aborted := true } := by
  have h := c9_abort_partial_result.1
    { warmupIterations := 5, minSamples := 10, maxSamples := 100, maxTime := 10000,
      yieldBetweenSamples := true, maxCodeSize := 1024, executionTimeout := 1000,
      useWorker := true }
    { outcome := fun i => ⟨(i : ℚ), true, none⟩, elapsedAfter := fun i => (i : ℚ),
      sampleSig := fun i => decide (2 ≤ i), postWarmupSig := false }
    2 (by decide) (by decide) (by decide) rfl
  rw [h]
  rfl

/-! ## Default configuration size limit (claim C10) -/

set_option maxHeartbeats 2000000

/-- C10: a `Benchmarker` built with no configuration has
`maxCodeSize = megabytesToKilobytes(1) = 1024`, and since `validateCode`
compares the string's UTF-16 length — `code.length`, not its byte length —
against that limit, `benchmark()` under the default configuration rejects with
the size error every code string longer than 1024 UTF-16 units.  A string of
400 three-byte characters (1200 bytes but 400 units) passes the gate, and a
pattern-free string of 1100 characters is accepted by standalone
`validateCode` with its own `1024 * 1024` default yet rejected by the
benchmark path. -/
theorem c10_default_size_limit :
    megabytesToKilobytes 1 = 1024 ∧
    DEFAULT_CONFIG.maxCodeSize = megabytesToKilobytes 1 ∧
    (∀ code : List Char, 1024 < jsLength code →
      benchmarkValidate DEFAULT_CONFIG code = some (.sizeExceeded 1024)) ∧
    (jsLength euroRun = 400 ∧ 1024 < utf8Length euroRun ∧
      benchmarkValidate DEFAULT_CONFIG euroRun = none) ∧
    (validateCodeDefault aRun = none ∧
      benchmarkValidate DEFAULT_CONFIG aRun = some (.sizeExceeded 1024)) := by
  refine ⟨rfl, rfl, ?_, ⟨by decide, by decide, by decide⟩, ⟨by decide, by decide⟩⟩
  intro code h
  rw [benchmarkValidate, validateCode, validateCodeWith]
  rw [if_pos (by exact h)]
  rfl

/-- Witness for C10: the 1100-character string is rejected by the default
benchmark configuration's 1024-character limit. -/
theorem c10_default_size_limit_witness :
    benchmarkValidate DEFAULT_CONFIG aRun = some (.sizeExceeded 1024) :=
  c10_default_size_limit.2.2.1 aRun (by decide)

/-! ## Only the infinite-while patterns can match at the start of a
`while`-shaped string (claim C4) -/

theorem charCI_ne (p c x : Char) (hc : lowerJS c = x) (hp : lowerJS p ≠ x) :
    charCI p c = false := by
  simp [charCI, hc, hp]

theorem ne_of_lower (c x d : Char) (hc : lowerJS c = x) (hd : lowerJS d ≠ x) : c ≠ d :=
  fun he => hd (he ▸ hc)

theorem cLitCI_cons_ne (p c : Char) (ps cs : List Char) (h : charCI p c = false) :
    cLitCI (p :: ps) (c :: cs) = none := by
  simp [cLitCI, h]

theorem cLitCI_cons2_ne (p0 p1 c0 c1 : Char) (ps cs : List Char) (h : charCI p1 c1 = false) :
    cLitCI (p0 :: p1 :: ps) (c0 :: c1 :: cs) = none := by
  by_cases h0 : charCI p0 c0 <;> simp [cLitCI, h0, h]

theorem ofConsumer_none (f : List Char → Option (List Char)) (prev : Option Char)
    (s : List Char) (h : f s = none) : ofConsumer f prev s = none := by
  simp [ofConsumer, h]

theorem ofConsumerWB_none (f : List Char → Option (List Char)) (prev : Option Char)
    (s : List Char) (h : f s = none) : ofConsumerWB f prev s = none := by
  cases hp : prevIsWord prev <;> simp [ofConsumerWB, hp, h]

theorem cNameParen_none1 (nm0 c : Char) (nmt cs : List Char) (h : charCI nm0 c = false) :
    cNameParen (nm0 :: nmt) (c :: cs) = none := by
  simp [cNameParen, cLitCI_cons_ne nm0 c nmt cs h]

theorem cNameParen_none2 (nm0 nm1 c0 c1 : Char) (nmt cs : List Char)
    (h : charCI nm1 c1 = false) : cNameParen (nm0 :: nm1 :: nmt) (c0 :: c1 :: cs) = none := by
  simp [cNameParen, cLitCI_cons2_ne nm0 nm1 c0 c1 nmt cs h]

theorem cNameDot_none1 (nm0 c : Char) (nmt cs : List Char) (h : charCI nm0 c = false) :
    cNameDot (nm0 :: nmt) (c :: cs) = none := by
  simp [cNameDot, cLitCI_cons_ne nm0 c nmt cs h]

theorem cNameDot_none2 (nm0 nm1 c0 c1 : Char) (nmt cs : List Char)
    (h : charCI nm1 c1 = false) : cNameDot (nm0 :: nm1 :: nmt) (c0 :: c1 :: cs) = none := by
  simp [cNameDot, cLitCI_cons2_ne nm0 nm1 c0 c1 nmt cs h]

theorem cNewNameParen_none1 (nm : List Char) (c : Char) (cs : List Char)
    (h : charCI 'n' c = false) : cNewNameParen nm (c :: cs) = none := by
  simp [cNewNameParen, cLitCI_cons_ne 'n' c _ cs h]

theorem cScriptCreate_none1 (c : Char) (cs : List Char) (h : charCI 'd' c = false) :
    cScriptCreate (c :: cs) = none := by
  simp [cScriptCreate, cLitCI_cons_ne 'd' c _ cs h]

theorem cDotNameEq_none (nm : List Char) (c : Char) (cs : List Char) (h : ¬(c = '.')) :
    cDotNameEq nm (c :: cs) = none := by
  simp [cDotNameEq, cChar, h]

theorem mDebugger_none (c : Char) (cs : List Char) (h : charCI 'd' c = false) :
    mDebugger none (c :: cs) = none := by
  simp [mDebugger, prevIsWord, cLitCI_cons_ne 'd' c _ cs h]

theorem cDeleteProto_none1 (c : Char) (cs : List Char) (h : charCI 'd' c = false) :
    cDeleteProto (c :: cs) = none := by
  simp [cDeleteProto, cLitCI_cons_ne 'd' c _ cs h]

theorem cProtoAssign_none1 (c : Char) (cs : List Char) (h : charCI '_' c = false) :
    cProtoAssign (c :: cs) = none := by
  simp [cProtoAssign, cLitCI_cons_ne '_' c _ cs h]

theorem cProtoNull_none (c : Char) (cs : List Char) (h : ¬(c = '.')) :
    cProtoNull (c :: cs) = none := by
  simp [cProtoNull, cChar, h]

theorem cRequireMod_none1 (m : List Char) (c : Char) (cs : List Char)
    (h : charCI 'r' c = false) : cRequireMod m (c :: cs) = none := by
  simp [cRequireMod, cLitCI_cons_ne 'r' c _ cs h]

theorem cForInfinite_none1 (c : Char) (cs : List Char) (h : charCI 'f' c = false) :
    cForInfinite (c :: cs) = none := by
  simp [cForInfinite, cLitCI_cons_ne 'f' c _ cs h]


/-- Every catalog entry whose matcher succeeds at the very start of a string
whose first two characters case-fold to `w`, `h` carries the
`INFINITE_WHILE_LOOP` kind (only the four infinite-while patterns survive the
first two characters of `while`). -/
theorem catalog_zero_IWL (c0 c1 : Char) (rest : List Char)
    (h0 : lowerJS c0 = 'w') (h1 : lowerJS c1 = 'h') :
    ∀ A ∈ dangerousPatterns,
      A.matcher none (c0 :: c1 :: rest) = none ∨
        A.code = SecurityErrorCode.INFINITE_WHILE_LOOP := by
  intro A hA
  simp only [dangerousPatterns, List.mem_cons, List.not_mem_nil, or_false] at hA
  rcases hA with rfl | rfl | rfl | rfl | rfl | rfl | rfl | rfl | rfl | rfl | rfl | rfl | rfl | rfl | rfl | rfl | rfl | rfl | rfl | rfl | rfl | rfl | rfl | rfl | rfl | rfl | rfl | rfl | rfl | rfl | rfl | rfl | rfl | rfl | rfl | rfl | rfl | rfl | rfl | rfl | rfl | rfl | rfl | rfl | rfl | rfl | rfl | rfl | rfl | rfl | rfl | rfl | rfl | rfl | rfl | rfl
  · exact Or.inr rfl
  · exact Or.inr rfl
  · exact Or.inr rfl
  · exact Or.inr rfl
  · refine Or.inl ?_
    simp only [pForInfinite]
    exact ofConsumer_none _ _ _ (cForInfinite_none1 _ _ (charCI_ne 'f' c0 'w' h0 (by decide)))
  · refine Or.inl ?_
    simp only [pEval]
    exact ofConsumer_none _ _ _ (cNameParen_none1 _ _ _ _ (charCI_ne 'e' c0 'w' h0 (by decide)))
  · refine Or.inl ?_
    simp only [pFunction]
    exact ofConsumer_none _ _ _ (cNameParen_none1 _ _ _ _ (charCI_ne 'F' c0 'w' h0 (by decide)))
  · refine Or.inl ?_
    simp only [pSetTimeout]
    exact ofConsumer_none _ _ _ (cNameParen_none1 _ _ _ _ (charCI_ne 's' c0 'w' h0 (by decide)))
  · refine Or.inl ?_
    simp only [pSetInterval]
    exact ofConsumer_none _ _ _ (cNameParen_none1 _ _ _ _ (charCI_ne 's' c0 'w' h0 (by decide)))
  · refine Or.inl ?_
    simp only [pFetch]
    exact ofConsumer_none _ _ _ (cNameParen_none1 _ _ _ _ (charCI_ne 'f' c0 'w' h0 (by decide)))
  · refine Or.inl ?_
    simp only [pXHR]
    exact ofConsumer_none _ _ _ (cNameParen_none1 _ _ _ _ (charCI_ne 'X' c0 'w' h0 (by decide)))
  · refine Or.inl ?_
    simp only [pNewXHR]
    exact ofConsumer_none _ _ _ (cNewNameParen_none1 _ _ _ (charCI_ne 'n' c0 'w' h0 (by decide)))
  · refine Or.inl ?_
    simp only [pWebSocket]
    exact ofConsumer_none _ _ _ (cNameParen_none2 _ _ _ _ _ _ (charCI_ne 'e' c1 'h' h1 (by decide)))
  · refine Or.inl ?_
    simp only [pNewWebSocket]
    exact ofConsumer_none _ _ _ (cNewNameParen_none1 _ _ _ (charCI_ne 'n' c0 'w' h0 (by decide)))
  · refine Or.inl ?_
    simp only [pEventSource]
    exact ofConsumer_none _ _ _ (cNameParen_none1 _ _ _ _ (charCI_ne 'E' c0 'w' h0 (by decide)))
  · refine Or.inl ?_
    simp only [pNewEventSource]
    exact ofConsumer_none _ _ _ (cNewNameParen_none1 _ _ _ (charCI_ne 'n' c0 'w' h0 (by decide)))
  · refine Or.inl ?_
    simp only [pWorker]
    exact ofConsumer_none _ _ _ (cNameParen_none2 _ _ _ _ _ _ (charCI_ne 'o' c1 'h' h1 (by decide)))
  · refine Or.inl ?_
    simp only [pNewWorker]
    exact ofConsumer_none _ _ _ (cNewNameParen_none1 _ _ _ (charCI_ne 'n' c0 'w' h0 (by decide)))
  · refine Or.inl ?_
    simp only [pSharedWorker]
    exact ofConsumer_none _ _ _ (cNameParen_none1 _ _ _ _ (charCI_ne 'S' c0 'w' h0 (by decide)))
  · refine Or.inl ?_
    simp only [pNewSharedWorker]
    exact ofConsumer_none _ _ _ (cNewNameParen_none1 _ _ _ (charCI_ne 'n' c0 'w' h0 (by decide)))
  · refine Or.inl ?_
    simp only [pImportScripts]
    exact ofConsumer_none _ _ _ (cNameParen_none1 _ _ _ _ (charCI_ne 'i' c0 'w' h0 (by decide)))
  · refine Or.inl ?_
    simp only [pScriptCreate]
    exact ofConsumer_none _ _ _ (cScriptCreate_none1 _ _ (charCI_ne 'd' c0 'w' h0 (by decide)))
  · refine Or.inl ?_
    simp only [pInnerHTML]
    exact ofConsumer_none _ _ _ (cDotNameEq_none _ _ _ (ne_of_lower c0 'w' '.' h0 (by decide)))
  · refine Or.inl ?_
    simp only [pOuterHTML]
    exact ofConsumer_none _ _ _ (cDotNameEq_none _ _ _ (ne_of_lower c0 'w' '.' h0 (by decide)))
  · refine Or.inl ?_
    simp only [pRAF]
    exact ofConsumer_none _ _ _ (cNameParen_none1 _ _ _ _ (charCI_ne 'r' c0 'w' h0 (by decide)))
  · refine Or.inl ?_
    simp only [pSetImmediate]
    exact ofConsumer_none _ _ _ (cNameParen_none1 _ _ _ _ (charCI_ne 's' c0 'w' h0 (by decide)))
  · refine Or.inl ?_
    simp only [pNextTick]
    exact ofConsumer_none _ _ _ (cNameParen_none1 _ _ _ _ (charCI_ne 'p' c0 'w' h0 (by decide)))
  · refine Or.inl ?_
    simp only [pCryptoSubtle]
    exact ofConsumer_none _ _ _ (cLitCI_cons_ne 'c' c0 _ _ (charCI_ne 'c' c0 'w' h0 (by decide)))
  · refine Or.inl ?_
    simp only [pLocalStorage]
    exact ofConsumer_none _ _ _ (cNameDot_none1 _ _ _ _ (charCI_ne 'l' c0 'w' h0 (by decide)))
  · refine Or.inl ?_
    simp only [pSessionStorage]
    exact ofConsumer_none _ _ _ (cNameDot_none1 _ _ _ _ (charCI_ne 's' c0 'w' h0 (by decide)))
  · refine Or.inl ?_
    simp only [pIndexedDB]
    exact ofConsumer_none _ _ _ (cNameDot_none1 _ _ _ _ (charCI_ne 'i' c0 'w' h0 (by decide)))
  · refine Or.inl ?_
    simp only [pAlert]
    exact ofConsumer_none _ _ _ (cNameParen_none1 _ _ _ _ (charCI_ne 'a' c0 'w' h0 (by decide)))
  · refine Or.inl ?_
    simp only [pConfirm]
    exact ofConsumer_none _ _ _ (cNameParen_none1 _ _ _ _ (charCI_ne 'c' c0 'w' h0 (by decide)))
  · refine Or.inl ?_
    simp only [pPrompt]
    exact ofConsumer_none _ _ _ (cNameParen_none1 _ _ _ _ (charCI_ne 'p' c0 'w' h0 (by decide)))
  · refine Or.inl ?_
    simp only [pHistory]
    exact ofConsumerWB_none _ _ _ (cNameDot_none1 _ _ _ _ (charCI_ne 'h' c0 'w' h0 (by decide)))
  · refine Or.inl ?_
    simp only [pNavigator]
    exact ofConsumerWB_none _ _ _ (cNameDot_none1 _ _ _ _ (charCI_ne 'n' c0 'w' h0 (by decide)))
  · refine Or.inl ?_
    simp only [pImportCall]
    exact ofConsumerWB_none _ _ _ (cNameParen_none1 _ _ _ _ (charCI_ne 'i' c0 'w' h0 (by decide)))
  · refine Or.inl ?_
    simp only [pRequireCall]
    exact ofConsumerWB_none _ _ _ (cNameParen_none1 _ _ _ _ (charCI_ne 'r' c0 'w' h0 (by decide)))
  · refine Or.inl ?_
    simp only [pIncludeCall]
    exact ofConsumerWB_none _ _ _ (cNameParen_none1 _ _ _ _ (charCI_ne 'i' c0 'w' h0 (by decide)))
  · refine Or.inl ?_
    simp only [pGlobal]
    exact ofConsumerWB_none _ _ _ (cNameDot_none1 _ _ _ _ (charCI_ne 'g' c0 'w' h0 (by decide)))
  · refine Or.inl ?_
    simp only [pWindow]
    exact ofConsumerWB_none _ _ _ (cNameDot_none2 _ _ _ _ _ _ (charCI_ne 'i' c1 'h' h1 (by decide)))
  · refine Or.inl ?_
    simp only [pDocument]
    exact ofConsumerWB_none _ _ _ (cNameDot_none1 _ _ _ _ (charCI_ne 'd' c0 'w' h0 (by decide)))
  · refine Or.inl ?_
    simp only [pLocation]
    exact ofConsumerWB_none _ _ _ (cNameDot_none1 _ _ _ _ (charCI_ne 'l' c0 'w' h0 (by decide)))
  · refine Or.inl ?_
    simp only [pConsole]
    exact ofConsumerWB_none _ _ _ (cNameDot_none1 _ _ _ _ (charCI_ne 'c' c0 'w' h0 (by decide)))
  · refine Or.inl ?_
    simp only [pDebugger]
    exact mDebugger_none _ _ (charCI_ne 'd' c0 'w' h0 (by decide))
  · refine Or.inl ?_
    simp only [pWith]
    exact ofConsumerWB_none _ _ _ (cNameParen_none2 _ _ _ _ _ _ (charCI_ne 'i' c1 'h' h1 (by decide)))
  · refine Or.inl ?_
    simp only [pDeleteProto]
    exact ofConsumer_none _ _ _ (cDeleteProto_none1 _ _ (charCI_ne 'd' c0 'w' h0 (by decide)))
  · refine Or.inl ?_
    simp only [pProtoAssign]
    exact ofConsumer_none _ _ _ (cProtoAssign_none1 _ _ (charCI_ne '_' c0 'w' h0 (by decide)))
  · refine Or.inl ?_
    simp only [pProtoNull]
    exact ofConsumer_none _ _ _ (cProtoNull_none _ _ (ne_of_lower c0 'w' '.' h0 (by decide)))
  · refine Or.inl ?_
    simp only [pBuffer]
    exact ofConsumerWB_none _ _ _ (cNameDot_none1 _ _ _ _ (charCI_ne 'B' c0 'w' h0 (by decide)))
  · refine Or.inl ?_
    simp only [pFsDot]
    exact ofConsumerWB_none _ _ _ (cNameDot_none1 _ _ _ _ (charCI_ne 'f' c0 'w' h0 (by decide)))
  · refine Or.inl ?_
    simp only [pRequireFs]
    exact ofConsumer_none _ _ _ (cRequireMod_none1 _ _ _ (charCI_ne 'r' c0 'w' h0 (by decide)))
  · refine Or.inl ?_
    simp only [pRequirePath]
    exact ofConsumer_none _ _ _ (cRequireMod_none1 _ _ _ (charCI_ne 'r' c0 'w' h0 (by decide)))
  · refine Or.inl ?_
    simp only [pRequireChildProcess]
    exact ofConsumer_none _ _ _ (cRequireMod_none1 _ _ _ (charCI_ne 'r' c0 'w' h0 (by decide)))
  · refine Or.inl ?_
    simp only [pExecCall]
    exact ofConsumerWB_none _ _ _ (cNameParen_none1 _ _ _ _ (charCI_ne 'e' c0 'w' h0 (by decide)))
  · refine Or.inl ?_
    simp only [pSpawnCall]
    exact ofConsumerWB_none _ _ _ (cNameParen_none1 _ _ _ _ (charCI_ne 's' c0 'w' h0 (by decide)))

theorem cLitCI_ci_append (lit : List Char) :
    ∀ (s : List Char), lit.map lowerJS = s.map lowerJS →
      ∀ r, cLitCI lit (s ++ r) = some r := by
  induction lit with
  | nil =>
    intro s h r
    cases s with
    | nil => rfl
    | cons c cs => simp at h
  | cons p ps ih =>
    intro s h r
    cases s with
    | nil => simp at h
    | cons c cs =>
      simp only [List.map_cons, List.cons.injEq] at h
      simp only [List.cons_append, cLitCI, charCI, h.1, decide_eq_true_eq, if_true]
      exact ih cs h.2 r

theorem cWS_append (w : List Char) (hw : WSRun w) (c : Char) (hc : isSpaceJS c = false)
    (r : List Char) : cWS (w ++ c :: r) = c :: r := by
  induction w with
  | nil => simp [cWS, hc]
  | cons u us ih =>
    have hu : isSpaceJS u = true := hw u (List.mem_cons_self _ _)
    have hws : WSRun us := fun x hx => hw x (List.mem_cons_of_mem _ hx)
    simp only [List.cons_append, cWS, hu, if_true]
    exact ih hws

theorem cWS_nospace (c : Char) (r : List Char) (h : isSpaceJS c = false) :
    cWS (c :: r) = c :: r := by
  simp [cWS, h]

theorem cRun_bangs (b : Nat) : ∀ (n : Nat), n ≤ b → ∀ (c : Char), ¬(c = '!') →
    ∀ r, cRunAtLeast (fun x => x = '!') n (List.replicate b '!' ++ c :: r) = some (c :: r) := by
  induction b with
  | zero =>
    intro n hn c hc r
    interval_cases n
    simp [cRunAtLeast, hc]
  | succ b ih =>
    intro n hn c hc r
    rw [List.replicate_succ, List.cons_append, cRunAtLeast, if_pos (by decide)]
    exact ih (n - 1) (by omega) c hc r

theorem optDQ_skip (c : Char) (cs : List Char) (h : ¬(c = dq))
    (k : List Char → Option (List Char)) : optDQ (c :: cs) k = k (c :: cs) := by
  simp [optDQ, h]

theorem optDQ_take (cs : List Char) (k : List Char → Option (List Char))
    (v : List Char) (hk : k cs = some v) : optDQ (dq :: cs) k = some v := by
  simp [optDQ, hk]

theorem cEq23_two (c3 : Char) (h : ¬(c3 = '=')) (rest : List Char)
    (k : List Char → Option (List Char)) :
    cEq23 ('=' :: '=' :: c3 :: rest) k = k (c3 :: rest) := by
  simp only [cEq23]
  split
  · rename_i s1 r1 heq
    injection heq with a b
    injection b with a2 b2
    injection b2 with a3 b3
    exact absurd a3 h
  · rename_i s1 r1 hx heq
    injection heq with a b
    injection b with a2 b2
    rw [← b2]
  · rename_i s1 hx1 hx2
    exact (hx2 (c3 :: rest) rfl).elim

theorem cEq23_three (rest : List Char) (k : List Char → Option (List Char))
    (v : List Char) (hk : k rest = some v) :
    cEq23 ('=' :: '=' :: '=' :: rest) k = some v := by
  simp [cEq23, hk]

theorem isWordChar_false_of_space (u : Char) (h : isSpaceJS u = true) :
    isWordChar u = false := by
  simp only [isSpaceJS, Bool.or_eq_true, decide_eq_true_eq] at h
  rcases h with ((((((((((h | h) | h) | h) | h) | h) | h) | h) | h) | h) | h) <;>
    subst h <;> decide

theorem space_ne (u : Char) (h : isSpaceJS u = true) (d : Char) (hd : isSpaceJS d = false) :
    ¬(u = d) := by
  intro he
  rw [he, hd] at h
  cases h

theorem cGroup_single (c : Char) (hid : isIdentStart c = true) (u : Char) (t : List Char)
    (hu : isWordChar u = false) : cGroup (c :: u :: t) = some ([c], u :: t) := by
  simp [cGroup, hid, List.takeWhile, List.dropWhile, hu]

theorem ws_append_cases (w : List Char) (hw : WSRun w) (c : Char) (r : List Char) :
    ∃ c' r', w ++ c :: r = c' :: r' ∧ (isSpaceJS c' = true ∨ c' = c) := by
  cases w with
  | nil => exact ⟨c, r, rfl, Or.inr rfl⟩
  | cons u us =>
    exact ⟨u, us ++ c :: r, rfl, Or.inl (hw u (List.mem_cons_self _ _))⟩

theorem charCI_of_lower (p c x : Char) (hp : lowerJS p = x) (hc : lowerJS c = x) :
    charCI p c = true := by
  simp [charCI, hp, hc]

theorem space_lower_self (c : Char) (h : isSpaceJS c = true) : lowerJS c = c := by
  simp only [isSpaceJS, Bool.or_eq_true, decide_eq_true_eq] at h
  rcases h with ((((((((((h | h) | h) | h) | h) | h) | h) | h) | h) | h) | h) <;>
    subst h <;> decide

theorem isSpaceJS_false_of_lower (c x : Char) (hc : lowerJS c = x)
    (hx : isSpaceJS x = false) : isSpaceJS c = false := by
  by_contra hsp
  have hs : isSpaceJS c = true := by
    cases hcc : isSpaceJS c
    · exact absurd hcc hsp
    · rfl
  have hcc : lowerJS c = c := space_lower_self c hs
  rw [hcc] at hc
  rw [hc] at hs
  rw [hx] at hs
  cases hs

theorem cWhileParen_form (cW cH cI cL cE : Char)
    (h0 : lowerJS cW = 'w') (h1 : lowerJS cH = 'h') (h2 : lowerJS cI = 'i')
    (h3 : lowerJS cL = 'l') (h4 : lowerJS cE = 'e')
    (w1 w2 : List Char) (hw1 : WSRun w1) (hw2 : WSRun w2)
    (c : Char) (hc : isSpaceJS c = false) (r : List Char) :
    cWhileParen (cW :: cH :: cI :: cL :: cE :: (w1 ++ '(' :: (w2 ++ c :: r))) =
      some (c :: r) := by
  have hlit : cLitCI ['w', 'h', 'i', 'l', 'e']
      (cW :: cH :: cI :: cL :: cE :: (w1 ++ '(' :: (w2 ++ c :: r))) =
      some (w1 ++ '(' :: (w2 ++ c :: r)) :=
    cLitCI_ci_append ['w', 'h', 'i', 'l', 'e'] [cW, cH, cI, cL, cE]
      (by simp only [List.map_cons, List.map_nil, h0, h1, h2, h3, h4]; rfl)
      (w1 ++ '(' :: (w2 ++ c :: r))
  rw [cWhileParen, hlit]
  simp only [Option.bind]
  rw [cWS_append w1 hw1 '(' (by decide) _]
  rw [show cChar (fun x => x = '(') ('(' :: (w2 ++ c :: r)) = some (w2 ++ c :: r) from by
    simp [cChar]]
  simp only [Option.map]
  rw [cWS_append w2 hw2 c hc r]

theorem cWhileBangsFalse_form (cW cH cI cL cE cF cA cL2 cS cE2 : Char)
    (h0 : lowerJS cW = 'w') (h1 : lowerJS cH = 'h') (h2 : lowerJS cI = 'i')
    (h3 : lowerJS cL = 'l') (h4 : lowerJS cE = 'e')
    (f0 : lowerJS cF = 'f') (f1 : lowerJS cA = 'a') (f2 : lowerJS cL2 = 'l')
    (f3 : lowerJS cS = 's') (f4 : lowerJS cE2 = 'e')
    (w1 w2 w3 w4 : List Char) (hw1 : WSRun w1) (hw2 : WSRun w2) (hw3 : WSRun w3)
    (hw4 : WSRun w4) (b : Nat) (hb : 1 ≤ b) :
    cWhileBangsFalse (cW :: cH :: cI :: cL :: cE ::
      (w1 ++ '(' :: (w2 ++ (List.replicate b '!' ++
        (w3 ++ cF :: cA :: cL2 :: cS :: cE2 :: (w4 ++ [')'])))))) = some [] := by
  obtain ⟨b', rfl⟩ : ∃ b', b = b' + 1 := ⟨b - 1, by omega⟩
  rw [cWhileBangsFalse]
  rw [List.replicate_succ, List.cons_append]
  rw [cWhileParen_form cW cH cI cL cE h0 h1 h2 h3 h4 w1 w2 hw1 hw2 '!' (by decide) _]
  simp only [Option.bind]
  obtain ⟨c', r', heq, hc'⟩ :=
    ws_append_cases w3 hw3 cF (cA :: cL2 :: cS :: cE2 :: (w4 ++ [')']))
  have hc'ne : ¬(c' = '!') := by
    rcases hc' with hsp | hceq
    · exact space_ne c' hsp '!' (by decide)
    · rw [hceq]; exact ne_of_lower cF 'f' '!' f0 (by decide)
  rw [heq, ← List.cons_append, ← List.replicate_succ]
  rw [cRun_bangs (b' + 1) 1 (by omega) c' hc'ne r']
  simp only [Option.bind]
  rw [← heq]
  rw [cWS_append w3 hw3 cF (isSpaceJS_false_of_lower cF 'f' f0 (by decide)) _]
  have hlit : cLitCI ['f', 'a', 'l', 's', 'e']
      (cF :: cA :: cL2 :: cS :: cE2 :: (w4 ++ [')'])) = some (w4 ++ [')']) :=
    cLitCI_ci_append ['f', 'a', 'l', 's', 'e'] [cF, cA, cL2, cS, cE2]
      (by simp only [List.map_cons, List.map_nil, f0, f1, f2, f3, f4]; rfl) (w4 ++ [')'])
  rw [hlit]
  simp only [Option.bind]
  rw [show (w4 ++ [')'] : List Char) = w4 ++ ')' :: [] from rfl,
    cWS_append w4 hw4 ')' (by decide) []]
  simp [cChar]

theorem cWhileBangsTrue_form (cW cH cI cL cE cT cR cU cE2 : Char)
    (h0 : lowerJS cW = 'w') (h1 : lowerJS cH = 'h') (h2 : lowerJS cI = 'i')
    (h3 : lowerJS cL = 'l') (h4 : lowerJS cE = 'e')
    (t0 : lowerJS cT = 't') (t1 : lowerJS cR = 'r') (t2 : lowerJS cU = 'u')
    (t3 : lowerJS cE2 = 'e')
    (w1 w2 w3 w4 : List Char) (hw1 : WSRun w1) (hw2 : WSRun w2) (hw3 : WSRun w3)
    (hw4 : WSRun w4) (b : Nat) (hb : 2 ≤ b) :
    cWhileBangsTrue (cW :: cH :: cI :: cL :: cE ::
      (w1 ++ '(' :: (w2 ++ (List.replicate b '!' ++
        (w3 ++ cT :: cR :: cU :: cE2 :: (w4 ++ [')'])))))) = some [] := by
  obtain ⟨b', rfl⟩ : ∃ b', b = b' + 1 := ⟨b - 1, by omega⟩
  rw [cWhileBangsTrue]
  rw [List.replicate_succ, List.cons_append]
  rw [cWhileParen_form cW cH cI cL cE h0 h1 h2 h3 h4 w1 w2 hw1 hw2 '!' (by decide) _]
  simp only [Option.bind]
  obtain ⟨c', r', heq, hc'⟩ :=
    ws_append_cases w3 hw3 cT (cR :: cU :: cE2 :: (w4 ++ [')']))
  have hc'ne : ¬(c' = '!') := by
    rcases hc' with hsp | hceq
    · exact space_ne c' hsp '!' (by decide)
    · rw [hceq]; exact ne_of_lower cT 't' '!' t0 (by decide)
  rw [heq, ← List.cons_append, ← List.replicate_succ]
  rw [cRun_bangs (b' + 1) 2 (by omega) c' hc'ne r']
  simp only [Option.bind]
  rw [← heq]
  rw [cWS_append w3 hw3 cT (isSpaceJS_false_of_lower cT 't' t0 (by decide)) _]
  have hlit : cLitCI ['t', 'r', 'u', 'e']
      (cT :: cR :: cU :: cE2 :: (w4 ++ [')'])) = some (w4 ++ [')']) :=
    cLitCI_ci_append ['t', 'r', 'u', 'e'] [cT, cR, cU, cE2]
      (by simp only [List.map_cons, List.map_nil, t0, t1, t2, t3]; rfl) (w4 ++ [')'])
  rw [hlit]
  simp only [Option.bind]
  rw [show (w4 ++ [')'] : List Char) = w4 ++ ')' :: [] from rfl,
    cWS_append w4 hw4 ')' (by decide) []]
  simp [cChar]

theorem cWhileSelfEqIdent_form (cW cH cI cL cE cX1 cX2 : Char)
    (h0 : lowerJS cW = 'w') (h1 : lowerJS cH = 'h') (h2 : lowerJS cI = 'i')
    (h3 : lowerJS cL = 'l') (h4 : lowerJS cE = 'e')
    (hx1 : cX1 = 'x' ∨ cX1 = 'X') (hx2 : cX2 = 'x' ∨ cX2 = 'X')
    (w1 w2 w3 w4 w5 : List Char) (hw1 : WSRun w1) (hw2 : WSRun w2) (hw3 : WSRun w3)
    (hw4 : WSRun w4) (hw5 : WSRun w5) :
    cWhileSelfEq (cW :: cH :: cI :: cL :: cE ::
      (w1 ++ '(' :: (w2 ++ cX1 :: (w3 ++ '=' :: '=' ::
        (w4 ++ cX2 :: (w5 ++ [')'])))))) = some [] := by
  have x1l : lowerJS cX1 = 'x' := by rcases hx1 with rfl | rfl <;> decide
  have x2l : lowerJS cX2 = 'x' := by rcases hx2 with rfl | rfl <;> decide
  have x1sp : isSpaceJS cX1 = false := isSpaceJS_false_of_lower cX1 'x' x1l (by decide)
  have x2sp : isSpaceJS cX2 = false := isSpaceJS_false_of_lower cX2 'x' x2l (by decide)
  have x1id : isIdentStart cX1 = true := by rcases hx1 with rfl | rfl <;> decide
  rw [cWhileSelfEq]
  rw [cWhileParen_form cW cH cI cL cE h0 h1 h2 h3 h4 w1 w2 hw1 hw2 cX1 x1sp _]
  simp only [Option.bind]
  rw [optDQ_skip cX1 _ (ne_of_lower cX1 'x' dq x1l (by decide)) _]
  rw [cWS_nospace cX1 _ x1sp]
  obtain ⟨c', r', heq, hc'⟩ :=
    ws_append_cases w3 hw3 '=' ('=' :: (w4 ++ cX2 :: (w5 ++ [')'])))
  have hw' : isWordChar c' = false := by
    rcases hc' with hsp | hceq
    · exact isWordChar_false_of_space c' hsp
    · rw [hceq]; decide
  rw [heq, cGroup_single cX1 x1id c' r' hw']
  simp only [Option.bind]
  rw [← heq, cWS_append w3 hw3 '=' (by decide) _]
  rw [optDQ_skip '=' _ (by decide) _]
  rw [cWS_nospace '=' _ (by decide)]
  obtain ⟨d', s', heq2, hd'⟩ := ws_append_cases w4 hw4 cX2 (w5 ++ [')'])
  have hd'ne : ¬(d' = '=') := by
    rcases hd' with hsp | hceq
    · exact space_ne d' hsp '=' (by decide)
    · rw [hceq]; exact ne_of_lower cX2 'x' '=' x2l (by decide)
  rw [heq2, cEq23_two d' hd'ne s' _]
  rw [← heq2, cWS_append w4 hw4 cX2 x2sp _]
  rw [optDQ_skip cX2 _ (ne_of_lower cX2 'x' dq x2l (by decide)) _]
  rw [cWS_nospace cX2 _ x2sp]
  rw [show cLitCI [cX1] (cX2 :: (w5 ++ [')'])) = some (w5 ++ [')']) from
    cLitCI_ci_append [cX1] [cX2]
      (by simp only [List.map_cons, List.map_nil, x1l, x2l]) (w5 ++ [')'])]
  simp only [Option.bind]
  rw [show (w5 ++ [')'] : List Char) = w5 ++ ')' :: [] from rfl,
    cWS_append w5 hw5 ')' (by decide) []]
  rw [optDQ_skip ')' _ (by decide) _]
  rw [cWS_nospace ')' _ (by decide)]
  simp [cChar]

theorem cWhileSelfEqQuoted_form (cW cH cI cL cE cA1 cA2 : Char)
    (h0 : lowerJS cW = 'w') (h1 : lowerJS cH = 'h') (h2 : lowerJS cI = 'i')
    (h3 : lowerJS cL = 'l') (h4 : lowerJS cE = 'e')
    (ha1 : cA1 = 'a' ∨ cA1 = 'A') (ha2 : cA2 = 'a' ∨ cA2 = 'A')
    (w1 w2 w3 w4 w5 : List Char) (hw1 : WSRun w1) (hw2 : WSRun w2) (hw3 : WSRun w3)
    (hw4 : WSRun w4) (hw5 : WSRun w5) :
    cWhileSelfEq (cW :: cH :: cI :: cL :: cE ::
      (w1 ++ '(' :: (w2 ++ dq :: cA1 :: dq ::
        (w3 ++ '=' :: '=' :: '=' ::
          (w4 ++ dq :: cA2 :: dq :: (w5 ++ [')'])))))) = some [] := by
  have a1l : lowerJS cA1 = 'a' := by rcases ha1 with rfl | rfl <;> decide
  have a2l : lowerJS cA2 = 'a' := by rcases ha2 with rfl | rfl <;> decide
  have a2sp : isSpaceJS cA2 = false := isSpaceJS_false_of_lower cA2 'a' a2l (by decide)
  have a1id : isIdentStart cA1 = true := by rcases ha1 with rfl | rfl <;> decide
  rw [cWhileSelfEq]
  rw [cWhileParen_form cW cH cI cL cE h0 h1 h2 h3 h4 w1 w2 hw1 hw2 dq (by decide) _]
  simp only [Option.bind]
  refine optDQ_take _ _ [] ?_
  beta_reduce
  rw [cWS_nospace cA1 _ (isSpaceJS_false_of_lower cA1 'a' a1l (by decide))]
  rw [cGroup_single cA1 a1id dq _ (by decide)]
  simp only [Option.bind]
  rw [cWS_nospace dq _ (by decide)]
  refine optDQ_take _ _ [] ?_
  beta_reduce
  rw [cWS_append w3 hw3 '=' (by decide) _]
  refine cEq23_three _ _ [] ?_
  beta_reduce
  rw [cWS_append w4 hw4 dq (by decide) _]
  refine optDQ_take _ _ [] ?_
  beta_reduce
  rw [cWS_nospace cA2 _ a2sp]
  rw [show cLitCI [cA1] (cA2 :: (dq :: (w5 ++ [')']))) = some (dq :: (w5 ++ [')']))
    from cLitCI_ci_append [cA1] [cA2]
      (by simp only [List.map_cons, List.map_nil, a1l, a2l]) (dq :: (w5 ++ [')']))]
  simp only [Option.bind]
  rw [cWS_nospace dq _ (by decide)]
  refine optDQ_take _ _ [] ?_
  beta_reduce
  rw [show (w5 ++ [')'] : List Char) = w5 ++ ')' :: [] from rfl,
    cWS_append w5 hw5 ')' (by decide) []]
  simp [cChar]

theorem validate_zero_IWL (c0 c1 : Char) (rest : List Char) (maxSize : Nat)
    (h0 : lowerJS c0 = 'w') (h1 : lowerJS c1 = 'h')
    (B : DangerousPattern) (hB : B ∈ dangerousPatterns) (len0 : Nat)
    (hBm : B.matcher none (c0 :: c1 :: rest) = some len0)
    (hs : ¬(jsLength (c0 :: c1 :: rest) > maxSize)) :
    ∃ mt, validateCode (c0 :: c1 :: rest) maxSize =
      some (.security SecurityErrorCode.INFINITE_WHILE_LOOP 1 1 mt) := by
  have hFM : firstMatch B.matcher (c0 :: c1 :: rest) = some (0, len0) :=
    firstMatch_zero_of _ _ _ hBm
  have hne : scanEarliest dangerousPatterns (c0 :: c1 :: rest) ≠ none :=
    foldl_scanStep_some_of_mem _ dangerousPatterns none B hB (by rw [hFM]; rfl)
  obtain ⟨x, hscan⟩ : ∃ x, scanEarliest dangerousPatterns (c0 :: c1 :: rest) = some x := by
    cases hsc : scanEarliest dangerousPatterns (c0 :: c1 :: rest) with
    | none => exact absurd hsc hne
    | some x => exact ⟨x, rfl⟩
  obtain ⟨p, i, len⟩ := x
  obtain ⟨hpFM, hmin, -, hp⟩ := foldl_scanStep_sound (c0 :: c1 :: rest) dangerousPatterns
    none (by intro q j l h; cases h) p i len hscan
  have hi0 : i = 0 := Nat.le_antisymm (hmin B hB 0 len0 hFM) (Nat.zero_le i)
  subst hi0
  have hpmem : p ∈ dangerousPatterns := by
    rcases hp with h | h
    · exact h
    · cases h
  have hpz : p.matcher none (c0 :: c1 :: rest) = some len :=
    firstMatch_zero_inv _ _ _ hpFM
  have hpc : p.code = SecurityErrorCode.INFINITE_WHILE_LOOP := by
    rcases catalog_zero_IWL c0 c1 rest h0 h1 p hpmem with h | h
    · rw [h] at hpz; cases hpz
    · exact h
  refine ⟨trimJS (((c0 :: c1 :: rest).drop 0).take len), ?_⟩
  have hv := validateCodeWith_of_scan dangerousPatterns (c0 :: c1 :: rest) maxSize
    p 0 len hs hscan
  rw [validateCode, hv, hpc]
  simp [splitNl]

theorem ofConsumer_some (f : List Char → Option (List Char)) (s : List Char)
    (h : f s = some []) : ofConsumer f none s = some s.length := by
  simp [ofConsumer, h]

/-- C4 (amended): each of the four obfuscated infinite-while forms —
`while(!false)` (any positive run of bangs), `while(!!true)` (any run of two
or more bangs), `while(x==x)`, and `while("a"==="a")` — with arbitrary runs
of interior whitespace at the token boundaries marked `s*` in the catalog
patterns (after `while`, after `(`, around the operator and the operands,
before `)`) and any letter case, makes `validateCode` report a security
error of kind `INFINITE_WHILE_LOOP` at line 1, column 1, provided the code
fits the size limit.  The original claim's "arbitrary runs of interior
whitespace" fails when whitespace splits a bang run: `while(! !true)`
matches no catalog pattern (see the counterexample). -/
theorem c4_infinite_while_variants :
    (∀ (cW cH cI cL cE cF cA cL2 cS cE2 : Char),
      lowerJS cW = 'w' → lowerJS cH = 'h' → lowerJS cI = 'i' → lowerJS cL = 'l' →
      lowerJS cE = 'e' → lowerJS cF = 'f' → lowerJS cA = 'a' → lowerJS cL2 = 'l' →
      lowerJS cS = 's' → lowerJS cE2 = 'e' →
      ∀ (w1 w2 w3 w4 : List Char), WSRun w1 → WSRun w2 → WSRun w3 → WSRun w4 →
      ∀ (b : Nat), 1 ≤ b → ∀ (maxSize : Nat),
      ¬(jsLength (cW :: cH :: cI :: cL :: cE :: (w1 ++ '(' :: (w2 ++
          (List.replicate b '!' ++ (w3 ++ cF :: cA :: cL2 :: cS :: cE2 ::
            (w4 ++ [')'])))))) > maxSize) →
      ∃ mt, validateCode (cW :: cH :: cI :: cL :: cE :: (w1 ++ '(' :: (w2 ++
          (List.replicate b '!' ++ (w3 ++ cF :: cA :: cL2 :: cS :: cE2 ::
            (w4 ++ [')'])))))) maxSize =
        some (.security SecurityErrorCode.INFINITE_WHILE_LOOP 1 1 mt)) ∧
    (∀ (cW cH cI cL cE cT cR cU cE2 : Char),
      lowerJS cW = 'w' → lowerJS cH = 'h' → lowerJS cI = 'i' → lowerJS cL = 'l' →
      lowerJS cE = 'e' → lowerJS cT = 't' → lowerJS cR = 'r' → lowerJS cU = 'u' →
      lowerJS cE2 = 'e' →
      ∀ (w1 w2 w3 w4 : List Char), WSRun w1 → WSRun w2 → WSRun w3 → WSRun w4 →
      ∀ (b : Nat), 2 ≤ b → ∀ (maxSize : Nat),
      ¬(jsLength (cW :: cH :: cI :: cL :: cE :: (w1 ++ '(' :: (w2 ++
          (List.replicate b '!' ++ (w3 ++ cT :: cR :: cU :: cE2 ::
            (w4 ++ [')'])))))) > maxSize) →
      ∃ mt, validateCode (cW :: cH :: cI :: cL :: cE :: (w1 ++ '(' :: (w2 ++
          (List.replicate b '!' ++ (w3 ++ cT :: cR :: cU :: cE2 ::
            (w4 ++ [')'])))))) maxSize =
        some (.security SecurityErrorCode.INFINITE_WHILE_LOOP 1 1 mt)) ∧
    (∀ (cW cH cI cL cE cX1 cX2 : Char),
      lowerJS cW = 'w' → lowerJS cH = 'h' → lowerJS cI = 'i' → lowerJS cL = 'l' →
      lowerJS cE = 'e' → (cX1 = 'x' ∨ cX1 = 'X') → (cX2 = 'x' ∨ cX2 = 'X') →
      ∀ (w1 w2 w3 w4 w5 : List Char),
      WSRun w1 → WSRun w2 → WSRun w3 → WSRun w4 → WSRun w5 →
      ∀ (maxSize : Nat),
      ¬(jsLength (cW :: cH :: cI :: cL :: cE :: (w1 ++ '(' :: (w2 ++ cX1 ::
          (w3 ++ '=' :: '=' :: (w4 ++ cX2 :: (w5 ++ [')'])))))) > maxSize) →
      ∃ mt, validateCode (cW :: cH :: cI :: cL :: cE :: (w1 ++ '(' :: (w2 ++ cX1 ::
          (w3 ++ '=' :: '=' :: (w4 ++ cX2 :: (w5 ++ [')'])))))) maxSize =
        some (.security SecurityErrorCode.INFINITE_WHILE_LOOP 1 1 mt)) ∧
    (∀ (cW cH cI cL cE cA1 cA2 : Char),
      lowerJS cW = 'w' → lowerJS cH = 'h' → lowerJS cI = 'i' → lowerJS cL = 'l' →
      lowerJS cE = 'e' → (cA1 = 'a' ∨ cA1 = 'A') → (cA2 = 'a' ∨ cA2 = 'A') →
      ∀ (w1 w2 w3 w4 w5 : List Char),
      WSRun w1 → WSRun w2 → WSRun w3 → WSRun w4 → WSRun w5 →
      ∀ (maxSize : Nat),
      ¬(jsLength (cW :: cH :: cI :: cL :: cE :: (w1 ++ '(' :: (w2 ++ dq :: cA1 :: dq ::
          (w3 ++ '=' :: '=' :: '=' ::
            (w4 ++ dq :: cA2 :: dq :: (w5 ++ [')'])))))) > maxSize) →
      ∃ mt, validateCode (cW :: cH :: cI :: cL :: cE :: (w1 ++ '(' :: (w2 ++ dq :: cA1 :: dq ::
          (w3 ++ '=' :: '=' :: '=' ::
            (w4 ++ dq :: cA2 :: dq :: (w5 ++ [')'])))))) maxSize =
        some (.security SecurityErrorCode.INFINITE_WHILE_LOOP 1 1 mt)) := by
  refine ⟨?_, ?_, ?_, ?_⟩
  · intro cW cH cI cL cE cF cA cL2 cS cE2 h0 h1 h2 h3 h4 f0 f1 f2 f3 f4
      w1 w2 w3 w4 hw1 hw2 hw3 hw4 b hb maxSize hs
    have hc := cWhileBangsFalse_form cW cH cI cL cE cF cA cL2 cS cE2
      h0 h1 h2 h3 h4 f0 f1 f2 f3 f4 w1 w2 w3 w4 hw1 hw2 hw3 hw4 b hb
    exact validate_zero_IWL cW cH _ maxSize h0 h1 pWhileBangsFalse
      (by simp [dangerousPatterns]) _ (ofConsumer_some _ _ hc) hs
  · intro cW cH cI cL cE cT cR cU cE2 h0 h1 h2 h3 h4 t0 t1 t2 t3
      w1 w2 w3 w4 hw1 hw2 hw3 hw4 b hb maxSize hs
    have hc := cWhileBangsTrue_form cW cH cI cL cE cT cR cU cE2
      h0 h1 h2 h3 h4 t0 t1 t2 t3 w1 w2 w3 w4 hw1 hw2 hw3 hw4 b hb
    exact validate_zero_IWL cW cH _ maxSize h0 h1 pWhileBangsTrue
      (by simp [dangerousPatterns]) _ (ofConsumer_some _ _ hc) hs
  · intro cW cH cI cL cE cX1 cX2 h0 h1 h2 h3 h4 hx1 hx2
      w1 w2 w3 w4 w5 hw1 hw2 hw3 hw4 hw5 maxSize hs
    have hc := cWhileSelfEqIdent_form cW cH cI cL cE cX1 cX2
      h0 h1 h2 h3 h4 hx1 hx2 w1 w2 w3 w4 w5 hw1 hw2 hw3 hw4 hw5
    exact validate_zero_IWL cW cH _ maxSize h0 h1 pWhileSelfEq
      (by simp [dangerousPatterns]) _ (ofConsumer_some _ _ hc) hs
  · intro cW cH cI cL cE cA1 cA2 h0 h1 h2 h3 h4 ha1 ha2
      w1 w2 w3 w4 w5 hw1 hw2 hw3 hw4 hw5 maxSize hs
    have hc := cWhileSelfEqQuoted_form cW cH cI cL cE cA1 cA2
      h0 h1 h2 h3 h4 ha1 ha2 w1 w2 w3 w4 w5 hw1 hw2 hw3 hw4 hw5
    exact validate_zero_IWL cW cH _ maxSize h0 h1 pWhileSelfEq
      (by simp [dangerousPatterns]) _ (ofConsumer_some _ _ hc) hs

/-- C4 counterexample: `while(! !true)` — the `!!true` form with an interior
whitespace run splitting the bang run — matches no catalog pattern, so
`validateCode` accepts it; interior whitespace is only tolerated at the
boundaries the catalog patterns mark with `\s*`. -/
theorem c4_counterexample :
    validateCode (("while(! !true)").data) (1024 * 1024) = none := by decide

theorem c4_infinite_while_variants_witness :
    (∃ mt, validateCode ('w' :: 'h' :: 'i' :: 'l' :: 'e' :: ([] ++ '(' :: ([] ++
        (List.replicate 1 '!' ++ ([] ++ 'f' :: 'a' :: 'l' :: 's' :: 'e' ::
          ([] ++ [')'])))))) (1024 * 1024) =
      some (.security SecurityErrorCode.INFINITE_WHILE_LOOP 1 1 mt)) ∧
    (∃ mt, validateCode ('w' :: 'h' :: 'i' :: 'l' :: 'e' :: ([] ++ '(' :: ([] ++
        (List.replicate 2 '!' ++ ([] ++ 't' :: 'r' :: 'u' :: 'e' ::
          ([] ++ [')'])))))) (1024 * 1024) =
      some (.security SecurityErrorCode.INFINITE_WHILE_LOOP 1 1 mt)) ∧
    (∃ mt, validateCode ('w' :: 'h' :: 'i' :: 'l' :: 'e' :: ([] ++ '(' :: ([] ++ 'x' ::
        ([] ++ '=' :: '=' :: ([] ++ 'x' :: ([] ++ [')'])))))) (1024 * 1024) =
      some (.security SecurityErrorCode.INFINITE_WHILE_LOOP 1 1 mt)) ∧
    (∃ mt, validateCode ('w' :: 'h' :: 'i' :: 'l' :: 'e' :: ([] ++ '(' ::
        ([] ++ dq :: 'a' :: dq :: ([] ++ '=' :: '=' :: '=' ::
          ([] ++ dq :: 'a' :: dq :: ([] ++ [')'])))))) (1024 * 1024) =
      some (.security SecurityErrorCode.INFINITE_WHILE_LOOP 1 1 mt)) :=
  ⟨c4_infinite_while_variants.1 'w' 'h' 'i' 'l' 'e' 'f' 'a' 'l' 's' 'e'
      (by decide) (by decide) (by decide) (by decide) (by decide) (by decide)
      (by decide) (by decide) (by decide) (by decide)
      [] [] [] [] (by decide) (by decide) (by decide) (by decide)
      1 (by decide) (1024 * 1024) (by decide),
   c4_infinite_while_variants.2.1 'w' 'h' 'i' 'l' 'e' 't' 'r' 'u' 'e'
      (by decide) (by decide) (by decide) (by decide) (by decide) (by decide)
      (by decide) (by decide) (by decide)
      [] [] [] [] (by decide) (by decide) (by decide) (by decide)
      2 (by decide) (1024 * 1024) (by decide),
   c4_infinite_while_variants.2.2.1 'w' 'h' 'i' 'l' 'e' 'x' 'x'
      (by decide) (by decide) (by decide) (by decide) (by decide)
      (Or.inl rfl) (Or.inl rfl)
      [] [] [] [] [] (by decide) (by decide) (by decide) (by decide) (by decide)
      (1024 * 1024) (by decide),
   c4_infinite_while_variants.2.2.2 'w' 'h' 'i' 'l' 'e' 'a' 'a'
      (by decide) (by decide) (by decide) (by decide) (by decide)
      (Or.inl rfl) (Or.inl rfl)
      [] [] [] [] [] (by decide) (by decide) (by decide) (by decide) (by decide)
      (1024 * 1024) (by decide)⟩
